import Mathlib

/-!
Verification development for the `my_town_sim` repository (file
`town_model.py`): an hourly agent-based SEIR town simulation with a
stress model and a configurable shutdown policy.

The Python source is shallowly embedded below.  Python floats are
modelled as rationals (`ℚ`), Python strings as `String`, the module's
seeded pseudo-random streams as an explicitly threaded deterministic
generator state, and single random draws as explicit oracle arguments
where a local characterisation is proved.
-/

namespace TownSim

/-- The four SEIR health states carried by `TownAgent.health_state`
(`"S"`, `"E"`, `"I"`, `"R"` in the source). -/
inductive HealthState where
  | S
  | E
  | I
  | R
deriving DecidableEq, Repr, Inhabited

/-- Numeric rank of a health state along the S → E → I → R progression. -/
def healthRank : HealthState → ℕ
  | .S => 0
  | .E => 1
  | .I => 2
  | .R => 3

/-- The health-relevant fields of a `TownAgent`: `health_state` and the
`days_in_state` counter (counted in hours in this model). -/
structure HealthView where
  health_state : HealthState
  days_in_state : ℕ
deriving DecidableEq, Repr, Inhabited

/-- Embedding of `TownAgent.update_health` (town_model.py lines 213-223):
increment the counter while Exposed or Infectious, then progress
E → I when the counter strictly exceeds `incubation_hours` and
I → R when it strictly exceeds `infectious_hours`, resetting the
counter to zero on each transition. -/
def update_health (incubation_hours infectious_hours : ℕ) (a : HealthView) : HealthView :=
  let a1 := if a.health_state = .E ∨ a.health_state = .I then
              { a with days_in_state := a.days_in_state + 1 }
            else a
  if a1.health_state = .E ∧ a1.days_in_state > incubation_hours then
    { health_state := .I, days_in_state := 0 }
  else if a1.health_state = .I ∧ a1.days_in_state > infectious_hours then
    { health_state := .R, days_in_state := 0 }
  else a1

/-- Location-category table `model.location_types` (a Python dict
`name -> type`); `locType` is `model.location_types.get(name, "other")`. -/
def locType (locTypes : List (String × String)) (name : String) : String :=
  match locTypes.lookup name with
  | some t => t
  | none => "other"

/-- Embedding of `ShutdownPolicy.allows_work` (lines 44-60). -/
def allows_work (mode role : String) : Bool :=
  if role == "service" then true
  else if mode == "none" then true
  else if mode == "targeted" then true
  else if mode == "full" then false
  else true

/-- Embedding of `ShutdownPolicy.allows_school` (lines 62-77). -/
def allows_school (mode role : String) : Bool :=
  if role != "student" then false
  else if mode == "none" then true
  else if mode == "targeted" then true
  else if mode == "full" then false
  else true

/-- Embedding of `ShutdownPolicy.allows_leisure_location` (lines 79-97). -/
def allows_leisure_location (mode : String) (locTypes : List (String × String))
    (name : String) : Bool :=
  let lt := locType locTypes name
  if mode == "none" then true
  else if mode == "targeted" then
    if lt == "park" then true
    else if lt == "cafe" then false
    else true
  else if mode == "full" then false
  else true

/-- Embedding of `ShutdownPolicy.allows_business_open` (lines 99-126). -/
def allows_business_open (mode : String) (locTypes : List (String × String))
    (role : String) (business : Option String) : Bool :=
  if role != "owner" then true
  else
    match business with
    | none => true
    | some b =>
      let lt := locType locTypes b
      if mode == "none" then true
      else if mode == "targeted" then
        if lt == "cafe" then false else true
      else if mode == "full" then false
      else true

/-- Embedding of `TownAgent._leisure_or_home` (lines 184-209) with the
two random draws passed as oracles: `r` is the value of
`self.random.random()` and `pick` selects the index used by
`self.random.choice(allowed)` (reduced modulo the list length).
Returns the agent's new location. -/
def leisure_or_home (mode : String) (locTypes : List (String × String))
    (leisure : List String) (home : String) (social_need stress : ℚ)
    (r : ℚ) (pick : ℕ) : String :=
  let p_go_out := min 1 (social_need + 2/5 * stress)
  if r < p_go_out then
    let allowed := leisure.filter (fun loc => allows_leisure_location mode locTypes loc)
    if allowed.isEmpty then home
    else allowed.getD (pick % allowed.length) home
  else home

/-- Embedding of `TownAgent.move` (lines 158-182) with the leisure-path
random draws passed as oracles; returns the agent's new location. -/
def move (mode : String) (locTypes : List (String × String)) (leisure : List String)
    (role home : String) (work : Option String) (social_need stress : ℚ)
    (current_hour : ℕ) (r : ℚ) (pick : ℕ) : String :=
  if role == "office" || role == "service" || role == "owner" then
    if 9 ≤ current_hour ∧ current_hour < 17 then
      if allows_work mode role && work.isSome then work.getD home else home
    else leisure_or_home mode locTypes leisure home social_need stress r pick
  else if role == "student" then
    if 8 ≤ current_hour ∧ current_hour < 15 then
      if allows_school mode role && work.isSome then work.getD home else home
    else leisure_or_home mode locTypes leisure home social_need stress r pick
  else leisure_or_home mode locTypes leisure home social_need stress r pick

/-- Count of Infectious agents in a co-location group
(`infectious_agents = [a for a in agents if a.health_state == "I"]`,
line 505). -/
def infCount (agents : List HealthView) : ℕ :=
  (agents.filter (fun a => a.health_state = .I)).length

/-- Per-susceptible infection probability `1 - (1 - beta) ** k`
(line 511). -/
def infection_prob (beta : ℚ) (k : ℕ) : ℚ := 1 - (1 - beta) ^ k

/-- The transmission loop over one co-location group (lines 507-514):
each Susceptible agent, when at least one Infectious agent is present,
consumes one fresh draw from the stream `draws` (indexed by how many
Susceptible agents came before it) and becomes Exposed with its counter
reset to 0 exactly when its draw is below `infection_prob beta k`;
every other agent is left unchanged. -/
def transmit_list (beta : ℚ) (k : ℕ) (draws : ℕ → ℚ) :
    List HealthView → ℕ → List HealthView
  | [], _ => []
  | a :: rest, i =>
    if a.health_state = .S ∧ 0 < k then
      (if draws i < infection_prob beta k then
         ({ health_state := .E, days_in_state := 0 } : HealthView)
       else a) :: transmit_list beta k draws rest (i + 1)
    else a :: transmit_list beta k draws rest i

/-- Embedding of the per-location infection dynamics of `TownModel.step`
(lines 494-514): a group with fewer than 2 occupants is skipped
(`continue`), otherwise the transmission loop runs with `k` the number
of Infectious agents of the group. -/
def process_group (beta : ℚ) (draws : ℕ → ℚ) (agents : List HealthView) :
    List HealthView :=
  if agents.length < 2 then agents
  else transmit_list beta (infCount agents) draws agents 0

/-- Embedding of the contact-recording loop of `TownModel.step`
(lines 494-502): a group with fewer than 2 occupants yields no contact
pairs; otherwise every unordered pair `(agents[i], agents[j])` with
`i < j` is recorded. -/
def group_contact_pairs {α : Type} (agents : List α) : List (α × α) :=
  if agents.length < 2 then []
  else
    (List.range agents.length).flatMap (fun i =>
      match agents.drop i with
      | [] => []
      | ai :: rest => rest.map (fun aj => (ai, aj)))

/-- The model-wide stress parameters set in `TownModel.__init__`
(lines 282-288). -/
structure StressParams where
  stress_decay : ℚ
  isolation_stress : ℚ
  fear_stress : ℚ
  economic_stress : ℚ
  dependent_stress : ℚ
  stress_influence : ℚ
  target_contacts : ℚ
deriving DecidableEq, Repr

/-- The concrete constants of `TownModel.__init__`:
`stress_decay = 0.001`, `isolation_stress = 0.002`, `fear_stress = 0.005`,
`economic_stress = 0.005`, `dependent_stress = 0.002`,
`stress_influence = 0.1`, `target_contacts = 5`. -/
def townStressParams : StressParams :=
  { stress_decay := 1/1000
    isolation_stress := 2/1000
    fear_stress := 5/1000
    economic_stress := 5/1000
    dependent_stress := 2/1000
    stress_influence := 1/10
    target_contacts := 5 }

/-- The fields of a contact that `update_stress` reads: the contact's
current stress and health state. -/
structure ContactView where
  stress : ℚ
  health_state : HealthState
deriving DecidableEq, Repr, Inhabited

/-- Sub-step 1 of `update_stress` (line 229): natural decay,
`stress = max(0.0, stress - stress_decay)`. -/
def stress_after_decay (p : StressParams) (s : ℚ) : ℚ :=
  max 0 (s - p.stress_decay)

/-- Sub-step 2 of `update_stress` (lines 232-234): isolation stress when
the contact count falls short of `social_need * target_contacts`. -/
def stress_after_isolation (p : StressParams) (numContacts : ℕ) (social_need : ℚ)
    (s : ℚ) : ℚ :=
  if (numContacts : ℚ) < social_need * p.target_contacts then
    min 1 (s + p.isolation_stress)
  else s

/-- Sub-step 3 of `update_stress` (lines 237-239): fear stress when at
least one contact is Infectious. -/
def stress_after_fear (p : StressParams) (infected_contacts : ℕ) (s : ℚ) : ℚ :=
  if 0 < infected_contacts then min 1 (s + p.fear_stress) else s

/-- Sub-step 4 of `update_stress` (lines 242-244): economic stress for an
owner whose business is not allowed to open. -/
def stress_after_economic (p : StressParams) (ownerBlocked : Bool) (s : ℚ) : ℚ :=
  if ownerBlocked then min 1 (s + p.economic_stress) else s

/-- Sub-step 5 of `update_stress` (lines 247-248): dependent stress when
the agent has dependents and at least one contact is Infectious. -/
def stress_after_dependent (p : StressParams) (has_dependents : Bool)
    (infected_contacts : ℕ) (s : ℚ) : ℚ :=
  if has_dependents ∧ 0 < infected_contacts then min 1 (s + p.dependent_stress) else s

/-- Sub-step 6 of `update_stress` (lines 251-254): unclamped social
blend toward the mean stress of the contacts,
`stress = (1 - alpha) * stress + alpha * avg_neighbor_stress`,
applied only when the contact set is non-empty. -/
def stress_after_social (p : StressParams) (contactStresses : List ℚ) (s : ℚ) : ℚ :=
  if contactStresses = [] then s
  else (1 - p.stress_influence) * s
       + p.stress_influence * (contactStresses.sum / contactStresses.length)

/-- Embedding of the stress value computed by `TownAgent.update_stress`
(lines 225-254): the six stress sub-steps in source order.  `ownerBlocked`
stands for `role == "owner" and not policy.allows_business_open(self)`.
(Sub-step 7, the compliance flip of lines 257-258, does not touch the
stress value.) -/
def update_stress_value (p : StressParams) (contacts : List ContactView)
    (social_need : ℚ) (ownerBlocked has_dependents : Bool) (s0 : ℚ) : ℚ :=
  let infected_contacts := (contacts.filter (fun c => c.health_state = .I)).length
  stress_after_social p (contacts.map (fun c => c.stress))
    (stress_after_dependent p has_dependents infected_contacts
      (stress_after_economic p ownerBlocked
        (stress_after_fear p infected_contacts
          (stress_after_isolation p contacts.length social_need
            (stress_after_decay p s0)))))

/-! ### The seeded random stream

`TownModel.__init__` seeds the process-wide and model-owned generators
from the single `seed` argument (lines 266-269); every later draw comes
from these seeded generators, so a run is a deterministic function of
the seed.  The generators are modelled by an explicitly threaded state
(a linear congruential generator); each Python drawing primitive maps
to one state-advancing function below. -/

/-- State of the seeded pseudo-random generator. -/
abbrev Rng := ℕ

/-- Advance the generator, returning a raw value and the new state. -/
def rngNext (s : Rng) : ℕ × Rng :=
  let t := (1664525 * s + 1013904223) % 4294967296
  (t, t)

/-- Model of `random.random()` / `self.random.random()`: a rational in
`[0, 1)` together with the advanced state. -/
def randFloat (s : Rng) : ℚ × Rng :=
  let (n, t) := rngNext s
  ((n : ℚ) / 4294967296, t)

/-- Model of `random.randint(a, b)` (both endpoints included). -/
def randint (a b : ℕ) (s : Rng) : ℕ × Rng :=
  let (n, t) := rngNext s
  (a + n % (b + 1 - a), t)

/-- Model of `random.uniform(a, b)`. -/
def uniformQ (a b : ℚ) (s : Rng) : ℚ × Rng :=
  let (r, t) := randFloat s
  (a + (b - a) * r, t)

/-- Model of `random.choice(l)` on a non-empty list. -/
def choiceD {α : Type} [Inhabited α] (l : List α) (s : Rng) : α × Rng :=
  let (n, t) := rngNext s
  (l.getD (n % l.length) default, t)

/-- Model of `random.shuffle` (also used for `random.sample` below):
repeatedly extract a randomly chosen remaining element. -/
def shuffleList {α : Type} : List α → Rng → List α × Rng
  | [], s => ([], s)
  | a :: as, s =>
    let n := (rngNext s).1
    let s1 := (rngNext s).2
    let i := n % (a :: as).length
    let x := (a :: as).getD i a
    let rest := (a :: as).eraseIdx i
    let (tail, s2) := shuffleList rest s1
    (x :: tail, s2)
termination_by l => l.length
decreasing_by
  have h : (rngNext s).1 % (a :: as).length < (a :: as).length :=
    Nat.mod_lt _ (Nat.succ_pos as.length)
  simp only [List.length_eraseIdx, List.length_cons] at h ⊢
  rw [if_pos h]
  omega

/-- Full state of a `TownAgent` (lines 131-154).  Agents are stored in a
list in scheduler insertion order; `unique_id` equals the agent's
position in that list (the constructor passes `unique_id=len(all_agents)`).
`today_contacts` holds the ids of this day's contacts as a
duplicate-free insertion-ordered id list.  The source keeps a Python
set of agent objects, which (the mesa `Agent` class defining no
`__hash__`) iterates in memory-address order; that order feeds the
floating-point `np.mean` of line 252, so this field fixes an iteration
order the source leaves to the allocator and, together with the
`Float`-as-`ℚ` convention, abstracts away an order-sensitive
floating-point summation channel.  Properties that are insensitive to
contact-set order and to exact rounding (membership, cardinality,
symmetry, the [0,1] stress bounds) are preserved by this abstraction;
bit-level reproducibility of the mean is not. -/
structure AgentSt where
  unique_id : ℕ
  role : String
  home : String
  work : Option String
  business : Option String
  location : String
  health_state : HealthState
  days_in_state : ℕ
  stress : ℚ
  social_need : ℚ
  compliant : Bool
  has_dependents : Bool
  employed : Bool
  today_contacts : List ℕ
deriving DecidableEq, Repr, Inhabited

/-- The `TownAgent.__init__` field initialisation (lines 132-154):
location starts at home, health Susceptible with counter 0, stress 0.2,
compliant and employed true, contact set empty. -/
def mkAgentSt (i : ℕ) (role home : String) (work business : Option String)
    (social_need : ℚ) (has_dependents : Bool) : AgentSt :=
  { unique_id := i
    role := role
    home := home
    work := work
    business := business
    location := home
    health_state := .S
    days_in_state := 0
    stress := 1/5
    social_need := social_need
    compliant := true
    has_dependents := has_dependents
    employed := true
    today_contacts := [] }

/-- The household-building `while` loop of `TownModel.__init__`
(lines 299-315): draw a household size in 1..4 (capped by the agents
still unassigned), emit one home location, and repeat until every agent
has a home.  Returns the home-location list, the per-agent home
assignment list, and the advanced generator. -/
def homesLoop (agentsLeft homeCount : ℕ) (s : Rng) :
    List String × List String × Rng :=
  if agentsLeft = 0 then ([], [], s)
  else
    let n := (randint 1 4 s).1
    let s1 := (randint 1 4 s).2
    let size := if agentsLeft < n then agentsLeft else n
    let hName := "home_" ++ toString homeCount
    let rest := homesLoop (agentsLeft - size) (homeCount + 1) s1
    (hName :: rest.1, List.replicate size hName ++ rest.2.1, rest.2.2)
termination_by agentsLeft
decreasing_by
  simp only [randint, rngNext]
  split
  · omega
  · omega

/-- One iteration of the agent-creation loops (lines 367-436): the draws
each role performs, in source order (work-site choice, social-need
uniform draw, and for the three non-student roles the has-dependents
coin flip). -/
def buildAgent (agent_homes school_locations office_locations service_locations
    cafe_locations : List String) (i : ℕ) (role : String) (s : Rng) :
    AgentSt × Rng :=
  let home := agent_homes.getD i ""
  if role == "student" then
    let w := (choiceD school_locations s).1
    let s1 := (choiceD school_locations s).2
    let sn := (uniformQ (2/5) (9/10) s1).1
    let s2 := (uniformQ (2/5) (9/10) s1).2
    (mkAgentSt i role home (some w) none sn false, s2)
  else if role == "office" then
    let w := (choiceD office_locations s).1
    let s1 := (choiceD office_locations s).2
    let sn := (uniformQ (3/10) (4/5) s1).1
    let s2 := (uniformQ (3/10) (4/5) s1).2
    let r := (randFloat s2).1
    let s3 := (randFloat s2).2
    (mkAgentSt i role home (some w) none sn (decide (r < 3/10)), s3)
  else if role == "service" then
    let w := (choiceD service_locations s).1
    let s1 := (choiceD service_locations s).2
    let sn := (uniformQ (1/5) (7/10) s1).1
    let s2 := (uniformQ (1/5) (7/10) s1).2
    let r := (randFloat s2).1
    let s3 := (randFloat s2).2
    (mkAgentSt i role home (some w) none sn (decide (r < 2/5)), s3)
  else
    let w := (choiceD cafe_locations s).1
    let s1 := (choiceD cafe_locations s).2
    let sn := (uniformQ (2/5) (9/10) s1).1
    let s2 := (uniformQ (2/5) (9/10) s1).2
    let r := (randFloat s2).1
    let s3 := (randFloat s2).2
    (mkAgentSt i role home (some w) (some w) sn (decide (r < 1/2)), s3)

/-- The agent-creation loops (lines 361-436), folded over the role list
with `i` the running `len(all_agents)` index. -/
def buildAgents (agent_homes school_locations office_locations service_locations
    cafe_locations : List String) :
    List String → ℕ → Rng → List AgentSt × Rng
  | [], _, s => ([], s)
  | role :: roles, i, s =>
    let ar := buildAgent agent_homes school_locations office_locations
      service_locations cafe_locations i role s
    let rest := buildAgents agent_homes school_locations office_locations
      service_locations cafe_locations roles (i + 1) ar.2
    (ar.1 :: rest.1, rest.2)

/-- One per-hour aggregate row collected by the `DataCollector`
(lines 450-469). -/
structure Snapshot where
  infected : ℕ
  avgStress : ℚ
  highStressFrac : ℚ
  avgStressStudent : ℚ
  avgStressOffice : ℚ
  avgStressService : ℚ
  avgStressOwner : ℚ
deriving DecidableEq, Repr, Inhabited

/-- Arithmetic mean of a list of rationals, totalised as 0 on the empty
list.  The 0 branch matches the explicit `else 0.0` guard of the four
per-role reporters (lines 456-467); the global `AvgStress` and
`HighStressFrac` reporters call `np.mean` unguarded, which on an empty
population (N = 0) yields NaN rather than 0 — `qmean` totalises that
float edge case. -/
def qmean (l : List ℚ) : ℚ := if l = [] then 0 else l.sum / l.length

/-- Mean stress over the agents of one role, 0.0 when the role is absent
(the `if any(...) else 0.0` guard of the per-role reporters). -/
def roleMean (role : String) (agents : List AgentSt) : ℚ :=
  qmean ((agents.filter (fun a => a.role == role)).map (fun a => a.stress))

/-- The model reporters of the `DataCollector` (lines 450-469). -/
def collectSnapshot (agents : List AgentSt) : Snapshot :=
  { infected := (agents.filter (fun a => a.health_state = .I)).length
    avgStress := qmean (agents.map (fun a => a.stress))
    highStressFrac := qmean (agents.map (fun a => if a.stress > 4/5 then (1 : ℚ) else 0))
    avgStressStudent := roleMean "student" agents
    avgStressOffice := roleMean "office" agents
    avgStressService := roleMean "service" agents
    avgStressOwner := roleMean "owner" agents }

/-- Full model state (`TownModel`, lines 263-469). -/
structure TownModelSt where
  num_agents : ℕ
  mode : String
  incubation_hours : ℕ
  infectious_hours : ℕ
  beta : ℚ
  sparams : StressParams
  location_types : List (String × String)
  home_locations : List String
  office_locations : List String
  service_locations : List String
  school_locations : List String
  cafe_locations : List String
  park_locations : List String
  leisure_locations : List String
  agents : List AgentSt
  current_hour : ℕ
  rng : Rng
  snapshots : List Snapshot
deriving DecidableEq, Repr

/-- Embedding of `TownModel.__init__(N, policy_mode, seed)`
(lines 264-469): seed the generator, build households, create the
location inventory and its category table, create the agents role block
by role block, and mark `min(3, N)` randomly sampled agents Infectious.
The Python `int(0.3*N)`-style role counts are modelled by rational
floor division. -/
def mkModel (N : ℕ) (policy_mode : String) (seed : ℕ) : TownModelSt :=
  let s0 : Rng := seed
  let hl := homesLoop N 0 s0
  let home_locations := hl.1
  let ah := shuffleList hl.2.1 hl.2.2
  let agent_homes := ah.1
  let s2 := ah.2
  let office_locations := (List.range (max 1 (N / 10))).map
    (fun i => "office_" ++ toString i)
  let service_locations := (List.range (max 1 (N / 20))).map
    (fun i => "service_" ++ toString i)
  let school_locations := (List.range (max 1 (N / 30))).map
    (fun i => "school_" ++ toString i)
  let cafe_locations := (List.range (max 1 (N / 25))).map
    (fun i => "cafe_" ++ toString i)
  let park_locations := (List.range (max 1 (N / 25))).map
    (fun i => "park_" ++ toString i)
  let leisure_locations := cafe_locations ++ park_locations
  let location_types :=
    home_locations.map (fun h => (h, "home"))
    ++ office_locations.map (fun o => (o, "office"))
    ++ service_locations.map (fun x => (x, "service"))
    ++ school_locations.map (fun x => (x, "school"))
    ++ cafe_locations.map (fun x => (x, "cafe"))
    ++ park_locations.map (fun x => (x, "park"))
  let n_students := 3 * N / 10
  let n_office := 2 * N / 5
  let n_service := N / 5
  let n_owner := N - (n_students + n_office + n_service)
  let roles := List.replicate n_students "student"
    ++ List.replicate n_office "office"
    ++ List.replicate n_service "service"
    ++ List.replicate n_owner "owner"
  let ba := buildAgents agent_homes school_locations office_locations
    service_locations cafe_locations roles 0 s2
  let agents0 := ba.1
  let s3 := ba.2
  let sample := shuffleList (List.range agents0.length) s3
  let infectedIds := sample.1.take (min 3 agents0.length)
  let agents := agents0.map (fun a =>
    if a.unique_id ∈ infectedIds then
      { a with health_state := .I, days_in_state := 0 }
    else a)
  { num_agents := N
    mode := policy_mode
    incubation_hours := 3 * 24
    infectious_hours := 7 * 24
    beta := 1/20
    sparams := townStressParams
    location_types := location_types
    home_locations := home_locations
    office_locations := office_locations
    service_locations := service_locations
    school_locations := school_locations
    cafe_locations := cafe_locations
    park_locations := park_locations
    leisure_locations := leisure_locations
    agents := agents
    current_hour := 0
    rng := sample.2
    snapshots := [] }

/-- `TownAgent._leisure_or_home` with the generator threaded through
(lines 184-209): one `random()` draw always; one `choice` draw only when
the agent goes out and the permitted list is non-empty. -/
def leisureOrHomeR (mode : String) (locTypes : List (String × String))
    (leisure : List String) (a : AgentSt) (s : Rng) : AgentSt × Rng :=
  let r := (randFloat s).1
  let s1 := (randFloat s).2
  let p_go_out := min 1 (a.social_need + 2/5 * a.stress)
  if r < p_go_out then
    let allowed := leisure.filter (fun loc => allows_leisure_location mode locTypes loc)
    if allowed.isEmpty then ({ a with location := a.home }, s1)
    else
      let n := (rngNext s1).1
      let s2 := (rngNext s1).2
      ({ a with location := allowed.getD (n % allowed.length) a.home }, s2)
  else ({ a with location := a.home }, s1)

/-- `TownAgent.move` with the generator threaded through (lines 158-182). -/
def moveAgentR (mode : String) (locTypes : List (String × String))
    (leisure : List String) (hour : ℕ) (a : AgentSt) (s : Rng) : AgentSt × Rng :=
  if a.role == "office" || a.role == "service" || a.role == "owner" then
    if 9 ≤ hour ∧ hour < 17 then
      ({ a with location :=
          if allows_work mode a.role && a.work.isSome then a.work.getD a.home
          else a.home }, s)
    else leisureOrHomeR mode locTypes leisure a s
  else if a.role == "student" then
    if 8 ≤ hour ∧ hour < 15 then
      ({ a with location :=
          if allows_school mode a.role && a.work.isSome then a.work.getD a.home
          else a.home }, s)
    else leisureOrHomeR mode locTypes leisure a s
  else leisureOrHomeR mode locTypes leisure a s

/-- Phase 1 of `TownModel.step` (lines 486-487): every agent moves, in
scheduler order. -/
def movePass (mode : String) (locTypes : List (String × String))
    (leisure : List String) (hour : ℕ) :
    List AgentSt → Rng → List AgentSt × Rng
  | [], s => ([], s)
  | a :: as, s =>
    let ar := moveAgentR mode locTypes leisure hour a s
    let rest := movePass mode locTypes leisure hour as ar.2
    (ar.1 :: rest.1, rest.2)

/-- Build the `loc_dict` grouping of lines 490-492: agent indices keyed
by location, groups ordered by first occupancy (Python dict insertion
order), members in scheduler order. -/
def insertGroup : List (String × List ℕ) → String → ℕ → List (String × List ℕ)
  | [], loc, i => [(loc, [i])]
  | (l, is) :: rest, loc, i =>
    if l == loc then (l, is ++ [i]) :: rest
    else (l, is) :: insertGroup rest loc i

/-- The location groups of the current hour, as index lists. -/
def groupIndices (agents : List AgentSt) : List (String × List ℕ) :=
  agents.enum.foldl (fun acc p => insertGroup acc p.2.location p.1) []

/-- Apply `f` to the agent at index `i` (no-op when out of range). -/
def modifyAgent (agents : List AgentSt) (i : ℕ) (f : AgentSt → AgentSt) :
    List AgentSt :=
  match agents.get? i with
  | some a => agents.set i (f a)
  | none => agents

/-- `set.add` on the contact id list. -/
def setInsert (l : List ℕ) (x : ℕ) : List ℕ := if x ∈ l then l else l ++ [x]

/-- Record one mutual contact pair (lines 499-502). -/
def recordPair (agents : List AgentSt) (i j : ℕ) : List AgentSt :=
  let ag1 := modifyAgent agents i
    (fun a => { a with today_contacts := setInsert a.today_contacts j })
  modifyAgent ag1 j
    (fun a => { a with today_contacts := setInsert a.today_contacts i })

/-- Record every unordered pair of a group (lines 499-502). -/
def recordGroupContacts (agents : List AgentSt) (is : List ℕ) : List AgentSt :=
  (group_contact_pairs is).foldl (fun ags p => recordPair ags p.1 p.2) agents

/-- The per-group transmission loop over the group's member indices
(lines 507-514), threading the generator: each Susceptible member draws
once (when the group has an Infectious member) and becomes Exposed when
the draw is below `infection_prob beta k`. -/
def transmitIndices (beta : ℚ) (k : ℕ) :
    List ℕ → List AgentSt → Rng → List AgentSt × Rng
  | [], agents, s => (agents, s)
  | i :: rest, agents, s =>
    match agents.get? i with
    | none => transmitIndices beta k rest agents s
    | some a =>
      if a.health_state = .S ∧ 0 < k then
        let r := (randFloat s).1
        let s1 := (randFloat s).2
        let agents1 :=
          if r < infection_prob beta k then
            agents.set i { a with health_state := .E, days_in_state := 0 }
          else agents
        transmitIndices beta k rest agents1 s1
      else transmitIndices beta k rest agents s

/-- Phase 2 of `TownModel.step` (lines 489-514): for each location group
in order, skip singleton groups, otherwise record contacts and run the
transmission loop. -/
def interactionPass (beta : ℚ) :
    List (String × List ℕ) → List AgentSt → Rng → List AgentSt × Rng
  | [], agents, s => (agents, s)
  | (_, is) :: rest, agents, s =>
    if is.length < 2 then interactionPass beta rest agents s
    else
      let ag1 := recordGroupContacts agents is
      let members := is.map (fun i => ag1.getD i default)
      let k := (members.filter (fun a => a.health_state = .I)).length
      let tr := transmitIndices beta k is ag1 s
      interactionPass beta rest tr.1 tr.2

/-- Phase 3 of `TownModel.step` for one agent (lines 517-519 together
with `update_health`, lines 213-223, and `update_stress`,
lines 225-258): health progression first, then the stress pipeline
reading the contacts' current fields, then the compliance flip, which
draws from the generator only when the updated stress exceeds 0.8. -/
def updateAgentHS (mode : String) (locTypes : List (String × String))
    (p : StressParams) (incubation_hours infectious_hours : ℕ)
    (agents : List AgentSt) (i : ℕ) (s : Rng) : List AgentSt × Rng :=
  match agents.get? i with
  | none => (agents, s)
  | some a =>
    let hv := update_health incubation_hours infectious_hours
      { health_state := a.health_state, days_in_state := a.days_in_state }
    let a1 := { a with health_state := hv.health_state
                       days_in_state := hv.days_in_state }
    let contacts : List ContactView := a1.today_contacts.map (fun cid =>
      let c := agents.getD cid default
      { stress := c.stress, health_state := c.health_state })
    let ownerBlocked :=
      a1.role == "owner" && !(allows_business_open mode locTypes a1.role a1.business)
    let newStress := update_stress_value p contacts a1.social_need ownerBlocked
      a1.has_dependents a1.stress
    let a2 := { a1 with stress := newStress }
    if newStress > 4/5 then
      let r := (randFloat s).1
      let s1 := (randFloat s).2
      let a3 := if r < 1/10 then { a2 with compliant := false } else a2
      (agents.set i a3, s1)
    else (agents.set i a2, s)

/-- Phase 3 of `TownModel.step` over the whole population, in scheduler
order (each agent's health and stress are both updated before the next
agent is visited). -/
def updatePass (mode : String) (locTypes : List (String × String))
    (p : StressParams) (incubation_hours infectious_hours : ℕ) :
    List ℕ → List AgentSt → Rng → List AgentSt × Rng
  | [], agents, s => (agents, s)
  | i :: rest, agents, s =>
    let u := updateAgentHS mode locTypes p incubation_hours infectious_hours agents i s
    updatePass mode locTypes p incubation_hours infectious_hours rest u.1 u.2

/-- Phase 0 of `TownModel.step` (lines 481-483): clear every contact set
when the hour-of-day is 0. -/
def stepAgents0 (m : TownModelSt) : List AgentSt :=
  if m.current_hour = 0 then
    m.agents.map (fun a => { a with today_contacts := [] })
  else m.agents

/-- Phase 1 of `TownModel.step` applied to the model state. -/
def stepMoved (m : TownModelSt) : List AgentSt × Rng :=
  movePass m.mode m.location_types m.leisure_locations m.current_hour
    (stepAgents0 m) m.rng

/-- Phase 2 of `TownModel.step` applied to the model state. -/
def stepInteracted (m : TownModelSt) : List AgentSt × Rng :=
  interactionPass m.beta (groupIndices (stepMoved m).1) (stepMoved m).1
    (stepMoved m).2

/-- Phase 3 of `TownModel.step` applied to the model state. -/
def stepUpdated (m : TownModelSt) : List AgentSt × Rng :=
  updatePass m.mode m.location_types m.sparams m.incubation_hours
    m.infectious_hours (List.range (stepInteracted m).1.length)
    (stepInteracted m).1 (stepInteracted m).2

/-- Embedding of `TownModel.step` (lines 471-525): clear the contact
sets at hour 0, run the movement pass, the interaction pass and the
health/stress pass, collect one snapshot, and advance the hour modulo
24. -/
def stepModel (m : TownModelSt) : TownModelSt :=
  { m with agents := (stepUpdated m).1
           rng := (stepUpdated m).2
           snapshots := m.snapshots ++ [collectSnapshot (stepUpdated m).1]
           current_hour := (m.current_hour + 1) % 24 }

/-- A complete run: construct the model from `(N, policy_mode, seed)` and
step it `hours` times. -/
def runModel (N : ℕ) (policy_mode : String) (seed : ℕ) (hours : ℕ) : TownModelSt :=
  stepModel^[hours] (mkModel N policy_mode seed)

/-! ### Helper lemmas -/

/-- Number of Susceptible agents among the first `i` members of a group:
the index into the draw stream used by the `i`-th member's transmission
draw. -/
def susBefore (l : List HealthView) (i : ℕ) : ℕ :=
  ((l.take i).filter (fun a => a.health_state = .S)).length

/-- The fields of an agent that the interaction and health/stress
passes never modify: role, home, work, business and location. -/
def corePart (a : AgentSt) : String × String × Option String × Option String × String :=
  (a.role, a.home, a.work, a.business, a.location)

/-- The construction inputs for which the spec's error-handling section
demands a fail-fast configuration error: population size below 1 or an
unrecognized policy mode (the out-of-range numeric parameters of the
claim are fixed constants in the source, not constructor inputs). -/
def specConstructionMustFail (N : ℕ) (mode : String) : Bool :=
  decide (N < 1) || !(["none", "targeted", "full"].contains mode)


theorem update_health_S_eq (ih fh : ℕ) (a : HealthView)
    (h : a.health_state = .S) : update_health ih fh a = a := by
  simp [update_health, h]

theorem update_health_R_eq (ih fh : ℕ) (a : HealthView)
    (h : a.health_state = .R) : update_health ih fh a = a := by
  simp [update_health, h]

theorem update_health_E_eq (ih fh d : ℕ) :
    update_health ih fh { health_state := .E, days_in_state := d } =
      (if ih < d + 1 then { health_state := .I, days_in_state := 0 }
       else { health_state := .E, days_in_state := d + 1 }) := by
  by_cases h : ih < d + 1 <;> simp [update_health, h]

theorem update_health_I_eq (ih fh d : ℕ) :
    update_health ih fh { health_state := .I, days_in_state := d } =
      (if fh < d + 1 then { health_state := .R, days_in_state := 0 }
       else { health_state := .I, days_in_state := d + 1 }) := by
  by_cases h : fh < d + 1 <;> simp [update_health, h]

theorem transmit_list_length (beta : ℚ) (k : ℕ) (draws : ℕ → ℚ) :
    ∀ (l : List HealthView) (j : ℕ),
      (transmit_list beta k draws l j).length = l.length := by
  intro l
  induction l with
  | nil => intro j; rfl
  | cons a rest ih =>
    intro j
    unfold transmit_list
    split
    · simp [ih]
    · simp [ih]

theorem transmit_list_zero_k (beta : ℚ) (draws : ℕ → ℚ) :
    ∀ (l : List HealthView) (j : ℕ), transmit_list beta 0 draws l j = l := by
  intro l
  induction l with
  | nil => intro j; rfl
  | cons a rest ih => intro j; unfold transmit_list; simp [ih]

theorem transmit_list_getD (beta : ℚ) (k : ℕ) (draws : ℕ → ℚ) (hk : 0 < k) :
    ∀ (l : List HealthView) (j i : ℕ), i < l.length →
      (transmit_list beta k draws l j).getD i default =
        (if (l.getD i default).health_state = .S then
           (if draws (j + susBefore l i) < infection_prob beta k then
              { health_state := .E, days_in_state := 0 }
            else l.getD i default)
         else l.getD i default) := by
  intro l
  induction l with
  | nil => intro j i h; simp at h
  | cons a rest ih =>
    intro j i hi
    unfold transmit_list
    by_cases hS : a.health_state = .S
    · rw [if_pos ⟨hS, hk⟩]
      cases i with
      | zero =>
        simp [susBefore, hS]
      | succ n =>
        have hn : n < rest.length := by
          simpa using hi
        have hidx : j + 1 + susBefore rest n = j + susBefore (a :: rest) (n + 1) := by
          simp [susBefore, hS]
          omega
        simp only [List.getD_cons_succ]
        rw [ih (j + 1) n hn, hidx]
    · rw [if_neg (by simp [hS])]
      cases i with
      | zero =>
        simp [hS]
      | succ n =>
        have hn : n < rest.length := by
          simpa using hi
        have hidx : j + susBefore rest n = j + susBefore (a :: rest) (n + 1) := by
          simp [susBefore, hS]
        simp only [List.getD_cons_succ]
        rw [ih j n hn, hidx]

theorem process_group_length (beta : ℚ) (draws : ℕ → ℚ) (agents : List HealthView) :
    (process_group beta draws agents).length = agents.length := by
  unfold process_group
  split
  · rfl
  · exact transmit_list_length beta _ draws agents 0

/-- Every entry of a processed group is either unchanged or a Susceptible
entry replaced by a fresh Exposed entry. -/
theorem process_group_getD_cases (beta : ℚ) (draws : ℕ → ℚ)
    (agents : List HealthView) (i : ℕ) :
    (process_group beta draws agents).getD i default = agents.getD i default ∨
    ((agents.getD i default).health_state = .S ∧
      (process_group beta draws agents).getD i default =
        { health_state := .E, days_in_state := 0 }) := by
  by_cases hlen : i < agents.length
  · unfold process_group
    by_cases h2 : agents.length < 2
    · rw [if_pos h2]
      exact Or.inl rfl
    · rw [if_neg h2]
      by_cases hk : 0 < infCount agents
      · rw [transmit_list_getD beta _ draws hk agents 0 i hlen]
        by_cases hS : (agents.getD i default).health_state = .S
        · rw [if_pos hS]
          by_cases hd : draws (0 + susBefore agents i) < infection_prob beta (infCount agents)
          · rw [if_pos hd]
            exact Or.inr ⟨hS, rfl⟩
          · rw [if_neg hd]
            exact Or.inl rfl
        · rw [if_neg hS]
          exact Or.inl rfl
      · have hk0 : infCount agents = 0 := by omega
        rw [hk0, transmit_list_zero_k]
        exact Or.inl rfl
  · left
    have h1 : (process_group beta draws agents).getD i default = default := by
      apply List.getD_eq_default
      rw [process_group_length]
      omega
    have h2 : agents.getD i default = default := by
      apply List.getD_eq_default
      omega
    rw [h1, h2]

/-! ### Theorems -/

/-- C8: `allows_business_open(agent)` returns true whenever the agent's
role is not owner or the agent has no business location; otherwise it
returns true under mode "none", false under mode "targeted" exactly when
the business is a cafe-category location (true otherwise), and false
unconditionally under mode "full". -/
theorem claim_C8_allows_business_open (mode role : String)
    (locTypes : List (String × String)) (business : Option String) :
    (role ≠ "owner" → allows_business_open mode locTypes role business = true) ∧
    (business = none → allows_business_open mode locTypes role business = true) ∧
    (∀ b, business = some b →
      (mode = "none" → allows_business_open mode locTypes role business = true) ∧
      (role = "owner" → mode = "targeted" →
        allows_business_open mode locTypes role business =
          !(locType locTypes b == "cafe")) ∧
      (role = "owner" → mode = "full" →
        allows_business_open mode locTypes role business = false)) := by
  refine ⟨?_, ?_, ?_⟩
  · intro h
    simp [allows_business_open, h]
  · intro h
    subst h
    by_cases hr : role = "owner" <;> simp [allows_business_open, hr]
  · intro b hb
    subst hb
    refine ⟨?_, ?_, ?_⟩
    · intro hm
      subst hm
      by_cases hr : role = "owner" <;> simp [allows_business_open, hr]
    · intro hr hm
      subst hr; subst hm
      by_cases hc : locType locTypes b = "cafe" <;>
        simp [allows_business_open, hc]
    · intro hr hm
      subst hr; subst hm
      by_cases hc : locType locTypes b = "cafe" <;>
        simp [allows_business_open, hc]

/-- Witness for C8 at a concrete owner agent whose business is a cafe
under mode "targeted". -/
theorem claim_C8_witness :
    allows_business_open "targeted" [("cafe_0", "cafe")] "owner" (some "cafe_0")
      = false :=
  ((claim_C8_allows_business_open "targeted" "owner" [("cafe_0", "cafe")]
      (some "cafe_0")).2.2 "cafe_0" rfl).2.1 rfl rfl

/-- C10: for every mode string outside {"none", "targeted", "full"},
all four policy predicates agree with mode "none" on every input: the
fall-through branch of each predicate returns the permissive answer. -/
theorem claim_C10_unknown_mode_like_none (mode : String)
    (h1 : mode ≠ "none") (h2 : mode ≠ "targeted") (h3 : mode ≠ "full") :
    (∀ role, allows_work mode role = allows_work "none" role) ∧
    (∀ role, allows_school mode role = allows_school "none" role) ∧
    (∀ locTypes name, allows_leisure_location mode locTypes name =
      allows_leisure_location "none" locTypes name) ∧
    (∀ locTypes role business,
      allows_business_open mode locTypes role business =
        allows_business_open "none" locTypes role business) := by
  have e1 : (mode == "none") = false := by simp [h1]
  have e2 : (mode == "targeted") = false := by simp [h2]
  have e3 : (mode == "full") = false := by simp [h3]
  refine ⟨?_, ?_, ?_, ?_⟩
  · intro role
    simp [allows_work, e1, e2, e3]
  · intro role
    simp [allows_school, e1, e2, e3]
  · intro locTypes name
    simp [allows_leisure_location, e1, e2, e3]
  · intro locTypes role business
    cases business <;> simp [allows_business_open, e1, e2, e3]

/-- Witness for C10 at the unrecognized mode "lockdown-lite". -/
theorem claim_C10_witness :
    allows_work "lockdown-lite" "office" = allows_work "none" "office" ∧
    allows_school "lockdown-lite" "student" = allows_school "none" "student" ∧
    allows_leisure_location "lockdown-lite" [("cafe_0", "cafe")] "cafe_0" =
      allows_leisure_location "none" [("cafe_0", "cafe")] "cafe_0" ∧
    allows_business_open "lockdown-lite" [("cafe_0", "cafe")] "owner" (some "cafe_0") =
      allows_business_open "none" [("cafe_0", "cafe")] "owner" (some "cafe_0") := by
  have h := claim_C10_unknown_mode_like_none "lockdown-lite"
    (by decide) (by decide) (by decide)
  exact ⟨h.1 "office", h.2.1 "student", h.2.2.1 _ _, h.2.2.2 _ _ _⟩

/-- C7: an Exposed agent becomes Infectious exactly when the counter
strictly exceeds `incubation_hours` (so with the model's
`incubation_hours = 72` the transition happens on the 73rd hourly
health update after exposure and not before), the counter resetting to
zero on transition; symmetrically Infectious becomes Recovered only
when the counter strictly exceeds `infectious_hours`. -/
theorem claim_C7_strict_incubation_boundary :
    (∀ ih fh d, update_health ih fh { health_state := .E, days_in_state := d } =
      (if ih < d + 1 then { health_state := .I, days_in_state := 0 }
       else { health_state := .E, days_in_state := d + 1 })) ∧
    (∀ ih fh d, update_health ih fh { health_state := .I, days_in_state := d } =
      (if fh < d + 1 then { health_state := .R, days_in_state := 0 }
       else { health_state := .I, days_in_state := d + 1 })) ∧
    (∀ N mode seed, (mkModel N mode seed).incubation_hours = 72 ∧
      (mkModel N mode seed).infectious_hours = 168) ∧
    (∀ k, k ≤ 72 →
      (update_health 72 168)^[k] { health_state := .E, days_in_state := 0 } =
        { health_state := .E, days_in_state := k }) ∧
    ((update_health 72 168)^[73] { health_state := .E, days_in_state := 0 } =
      { health_state := .I, days_in_state := 0 }) := by
  have hE : ∀ ih fh d, update_health ih fh { health_state := .E, days_in_state := d } =
      (if ih < d + 1 then { health_state := .I, days_in_state := 0 }
       else { health_state := .E, days_in_state := d + 1 }) := by
    intro ih fh d
    by_cases h : ih < d + 1 <;> simp [update_health, h, Nat.lt_irrefl]
  have hI : ∀ ih fh d, update_health ih fh { health_state := .I, days_in_state := d } =
      (if fh < d + 1 then { health_state := .R, days_in_state := 0 }
       else { health_state := .I, days_in_state := d + 1 }) := by
    intro ih fh d
    by_cases h : fh < d + 1 <;> simp [update_health, h, Nat.lt_irrefl]
  have hiter : ∀ k, k ≤ 72 →
      (update_health 72 168)^[k] { health_state := .E, days_in_state := 0 } =
        { health_state := .E, days_in_state := k } := by
    intro k
    induction k with
    | zero => intro _; rfl
    | succ n ih =>
      intro hk
      rw [Function.iterate_succ_apply', ih (by omega), hE]
      rw [if_neg (by omega)]
  refine ⟨hE, hI, ?_, hiter, ?_⟩
  · intro N mode seed
    exact ⟨rfl, rfl⟩
  · rw [show (73 : ℕ) = 72 + 1 from rfl, Function.iterate_succ_apply',
      hiter 72 le_rfl, hE]
    rw [if_pos (by omega)]

/-- Witness for C7: after 72 hourly updates the agent is still Exposed
with counter 72; the 73rd update makes it Infectious. -/
theorem claim_C7_witness :
    (update_health 72 168)^[72] { health_state := .E, days_in_state := 0 } =
      { health_state := .E, days_in_state := 72 } :=
  claim_C7_strict_incubation_boundary.2.2.2.1 72 le_rfl

/-- C1: in every location group formed after the movement pass, groups
with fewer than 2 occupants are skipped (no contacts, no transmission);
in larger groups every Susceptible agent with at least one Infectious
group member transitions to Exposed (counter reset to 0) exactly when
its own single independent draw falls below `1 - (1 - beta) ^ k`, with
`k` the group's Infectious count; every other agent is unchanged. -/
theorem claim_C1_group_transmission (beta : ℚ) (draws : ℕ → ℚ)
    (agents : List HealthView) :
    (agents.length < 2 →
      process_group beta draws agents = agents ∧
      group_contact_pairs agents = ([] : List (HealthView × HealthView))) ∧
    (2 ≤ agents.length → ∀ i, i < agents.length →
      (process_group beta draws agents).getD i default =
        (if (agents.getD i default).health_state = .S ∧ 0 < infCount agents then
           (if draws (susBefore agents i) < 1 - (1 - beta) ^ infCount agents then
              { health_state := .E, days_in_state := 0 }
            else agents.getD i default)
         else agents.getD i default)) := by
  constructor
  · intro h
    exact ⟨by simp [process_group, h], by simp [group_contact_pairs, h]⟩
  · intro h2 i hi
    have hnot : ¬ agents.length < 2 := by omega
    unfold process_group
    rw [if_neg hnot]
    by_cases hk : 0 < infCount agents
    · rw [transmit_list_getD beta (infCount agents) draws hk agents 0 i hi]
      by_cases hS : (agents.getD i default).health_state = .S
      · by_cases hd : draws (susBefore agents i) < 1 - (1 - beta) ^ infCount agents
        · simp [hS, hk, hd, infection_prob]
        · simp [hS, hk, hd, infection_prob]
      · rw [if_neg hS, if_neg (fun hcon => hS hcon.1)]
    · have hk0 : infCount agents = 0 := by omega
      rw [hk0, transmit_list_zero_k]
      simp [hk0]

/-- Witness for C1: in the two-member group [Susceptible, Infectious]
with a draw of 0 and beta = 0.05, the Susceptible agent becomes Exposed
with its counter reset. -/
theorem claim_C1_witness :
    (process_group (1/20) (fun _ => 0)
        [{ health_state := .S, days_in_state := 0 },
         { health_state := .I, days_in_state := 5 }]).getD 0 default =
      { health_state := .E, days_in_state := 0 } := by
  have h := (claim_C1_group_transmission (1/20) (fun _ => 0)
      [{ health_state := .S, days_in_state := 0 },
       { health_state := .I, days_in_state := 5 }]).2 (by decide) 0 (by decide)
  rw [h]
  have h1 : infCount [({ health_state := .S, days_in_state := 0 } : HealthView),
      { health_state := .I, days_in_state := 5 }] = 1 := rfl
  rw [h1]
  simp only [List.getD_cons_zero]
  norm_num [susBefore]


theorem qmean_bounds (l : List ℚ) (hne : l ≠ [])
    (h : ∀ x ∈ l, 0 ≤ x ∧ x ≤ 1) :
    0 ≤ l.sum / l.length ∧ l.sum / l.length ≤ 1 := by
  have hlen : 0 < (l.length : ℚ) := by
    have := List.length_pos.mpr hne
    exact_mod_cast this
  constructor
  · apply div_nonneg
    · exact List.sum_nonneg (fun x hx => (h x hx).1)
    · exact le_of_lt hlen
  · rw [div_le_one hlen]
    calc l.sum ≤ l.length • (1 : ℚ) :=
          List.sum_le_card_nsmul l 1 (fun x hx => (h x hx).2)
      _ = l.length := by simp

theorem clamped_add_bounds (s inc : ℚ) (h0 : 0 ≤ s) (hinc : 0 ≤ inc) :
    0 ≤ min 1 (s + inc) ∧ min 1 (s + inc) ≤ 1 := by
  constructor
  · apply le_min
    · norm_num
    · linarith
  · exact min_le_left 1 _

theorem stress_if_add_bounds (cond : Prop) [Decidable cond] (s inc : ℚ)
    (h0 : 0 ≤ s) (h1 : s ≤ 1) (hinc : 0 ≤ inc) :
    0 ≤ (if cond then min 1 (s + inc) else s) ∧
    (if cond then min 1 (s + inc) else s) ≤ 1 := by
  split
  · exact clamped_add_bounds s inc h0 hinc
  · exact ⟨h0, h1⟩

theorem stress_after_decay_bounds (p : StressParams) (hd : 0 ≤ p.stress_decay)
    (s : ℚ) (_h0 : 0 ≤ s) (h1 : s ≤ 1) :
    0 ≤ stress_after_decay p s ∧ stress_after_decay p s ≤ 1 := by
  unfold stress_after_decay
  constructor
  · exact le_max_left 0 _
  · apply max_le
    · norm_num
    · linarith

theorem stress_after_social_bounds (p : StressParams)
    (ha0 : 0 ≤ p.stress_influence) (ha1 : p.stress_influence ≤ 1)
    (cs : List ℚ) (hcs : ∀ x ∈ cs, 0 ≤ x ∧ x ≤ 1)
    (s : ℚ) (h0 : 0 ≤ s) (h1 : s ≤ 1) :
    0 ≤ stress_after_social p cs s ∧ stress_after_social p cs s ≤ 1 := by
  unfold stress_after_social
  split
  · exact ⟨h0, h1⟩
  · next hne =>
    obtain ⟨hm0, hm1⟩ := qmean_bounds cs hne hcs
    constructor
    · have e1 : 0 ≤ (1 - p.stress_influence) * s := mul_nonneg (by linarith) h0
      have e2 : 0 ≤ p.stress_influence * (cs.sum / cs.length) :=
        mul_nonneg ha0 hm0
      linarith
    · have e1 : (1 - p.stress_influence) * s ≤ (1 - p.stress_influence) * 1 :=
        mul_le_mul_of_nonneg_left h1 (by linarith)
      have e2 : p.stress_influence * (cs.sum / cs.length) ≤ p.stress_influence * 1 :=
        mul_le_mul_of_nonneg_left hm1 ha0
      linarith

/-- C6: the off-hours movement decision computes
`p = min(1, social_need + 0.4*stress)`; when the draw selects going out
the agent moves to an element of the policy-permitted subset of the
leisure pool picked by the choice draw (any permitted index is
reachable), when the draw selects staying in it goes home, and when the
permitted subset is empty it goes home even though the draw selected
going out; the leisure pool of the model is cafes ++ parks. -/
theorem claim_C6_leisure_decision (mode : String)
    (locTypes : List (String × String)) (leisure : List String)
    (home : String) (social_need stress : ℚ) (r : ℚ) (pick : ℕ) :
    (¬ r < min 1 (social_need + 2/5 * stress) →
      leisure_or_home mode locTypes leisure home social_need stress r pick = home) ∧
    (leisure.filter (fun loc => allows_leisure_location mode locTypes loc) = [] →
      leisure_or_home mode locTypes leisure home social_need stress r pick = home) ∧
    (r < min 1 (social_need + 2/5 * stress) →
      leisure.filter (fun loc => allows_leisure_location mode locTypes loc) ≠ [] →
      leisure_or_home mode locTypes leisure home social_need stress r pick =
        (leisure.filter (fun loc => allows_leisure_location mode locTypes loc)).getD
          (pick % (leisure.filter
            (fun loc => allows_leisure_location mode locTypes loc)).length) home ∧
      (leisure.filter (fun loc => allows_leisure_location mode locTypes loc)).getD
          (pick % (leisure.filter
            (fun loc => allows_leisure_location mode locTypes loc)).length) home ∈
        leisure.filter (fun loc => allows_leisure_location mode locTypes loc)) ∧
    (r < min 1 (social_need + 2/5 * stress) →
      ∀ j, j < (leisure.filter
        (fun loc => allows_leisure_location mode locTypes loc)).length →
      leisure_or_home mode locTypes leisure home social_need stress r j =
        (leisure.filter (fun loc => allows_leisure_location mode locTypes loc)).getD
          j home) ∧
    (∀ n pm seed, (mkModel n pm seed).leisure_locations =
      (mkModel n pm seed).cafe_locations ++ (mkModel n pm seed).park_locations) := by
  have hmem : leisure.filter (fun loc => allows_leisure_location mode locTypes loc) ≠ [] →
      ∀ k, (leisure.filter (fun loc => allows_leisure_location mode locTypes loc)).getD
        (k % (leisure.filter
          (fun loc => allows_leisure_location mode locTypes loc)).length) home ∈
        leisure.filter (fun loc => allows_leisure_location mode locTypes loc) := by
    intro hne k
    have hpos : 0 < (leisure.filter
        (fun loc => allows_leisure_location mode locTypes loc)).length :=
      List.length_pos.mpr hne
    have hlt := Nat.mod_lt k hpos
    rw [List.getD_eq_getElem _ home hlt]
    exact List.getElem_mem hlt
  refine ⟨?_, ?_, ?_, ?_, ?_⟩
  · intro hr
    simp [leisure_or_home, hr]
  · intro hemp
    by_cases hr : r < min 1 (social_need + 2/5 * stress)
    · unfold leisure_or_home
      rw [if_pos hr]
      simp [hemp]
    · unfold leisure_or_home
      rw [if_neg hr]
  · intro hr hne
    constructor
    · unfold leisure_or_home
      rw [if_pos hr]
      simp [List.isEmpty_iff, hne]
    · exact hmem hne pick
  · intro hr j hj
    have hne : leisure.filter (fun loc => allows_leisure_location mode locTypes loc) ≠ [] := by
      intro h
      rw [h] at hj
      simp at hj
    unfold leisure_or_home
    rw [if_pos hr]
    have hmod : j % (leisure.filter
        (fun loc => allows_leisure_location mode locTypes loc)).length = j :=
      Nat.mod_eq_of_lt hj
    simp [List.isEmpty_iff, hne, hmod]
  · intro n pm seed
    rfl

/-- Witness for C6: a concrete agent that goes out (draw 0 below
p = 1/2) and picks index 1 of the two permitted leisure locations. -/
theorem claim_C6_witness :
    leisure_or_home "none" [] ["cafe_0", "park_0"] "h" (1/2) 0 0 1 = "park_0" := by
  have h := (claim_C6_leisure_decision "none" [] ["cafe_0", "park_0"] "h"
      (1/2) 0 0 1).2.2.1 (by norm_num) (by decide)
  rw [h.1]
  rfl

theorem buildAgents_length (ah sl ol svl cl : List String) :
    ∀ (roles : List String) (i : ℕ) (s : Rng),
      (buildAgents ah sl ol svl cl roles i s).1.length = roles.length := by
  intro roles
  induction roles with
  | nil => intro i s; rfl
  | cons role rest ih =>
    intro i s
    simp [buildAgents, ih]

theorem mkModel_agents_length (N : ℕ) (mode : String) (seed : ℕ) :
    (mkModel N mode seed).agents.length = N := by
  show (List.map _ (buildAgents _ _ _ _ _ _ 0 _).1).length = N
  rw [List.length_map, buildAgents_length]
  simp only [List.length_append, List.length_replicate]
  omega

/-- Counterexample to C5: the spec demands a construction-time failure
for population size 0 with an unrecognized mode, but the embedded
constructor (like the source, which performs no validation) happily
returns a model with zero agents and the bogus mode stored. -/
theorem claim_C5_counterexample :
    specConstructionMustFail 0 "bogus" = true ∧
    (mkModel 0 "bogus" 7).num_agents = 0 ∧
    (mkModel 0 "bogus" 7).mode = "bogus" ∧
    (mkModel 0 "bogus" 7).agents = [] := by
  exact ⟨rfl, rfl, rfl, rfl⟩

/-- C5 (amended): construction never fails and never clamps: for every
population size (including 0), every mode string and every seed, the
constructor returns a model holding exactly the requested population
size and mode, with the numeric disease parameters as hardcoded
constants. -/
theorem claim_C5_no_construction_validation (N : ℕ) (mode : String) (seed : ℕ) :
    (mkModel N mode seed).num_agents = N ∧
    (mkModel N mode seed).mode = mode ∧
    (mkModel N mode seed).agents.length = N ∧
    (mkModel N mode seed).beta = 1/20 ∧
    (mkModel N mode seed).incubation_hours = 72 ∧
    (mkModel N mode seed).infectious_hours = 168 :=
  ⟨rfl, rfl, mkModel_agents_length N mode seed, rfl, rfl, rfl⟩

theorem set_same_map {β : Type} (f : AgentSt → β) :
    ∀ (l : List AgentSt) (i : ℕ) (x : AgentSt),
      (∀ a, l.get? i = some a → f x = f a) →
      (l.set i x).map f = l.map f := by
  intro l
  induction l with
  | nil => intro i x h; rfl
  | cons a as ih =>
    intro i x h
    cases i with
    | zero =>
      simp only [List.set, List.map_cons]
      rw [h a rfl]
    | succ n =>
      simp only [List.set, List.map_cons]
      rw [ih n x (fun b hb => h b hb)]

theorem modifyAgent_map_core (l : List AgentSt) (i : ℕ) (g : AgentSt → AgentSt)
    (hg : ∀ a, corePart (g a) = corePart a) :
    (modifyAgent l i g).map corePart = l.map corePart := by
  unfold modifyAgent
  cases hget : l.get? i with
  | none => rfl
  | some a =>
    apply set_same_map
    intro b hb
    rw [hget] at hb
    injection hb with hab
    rw [← hab]
    exact hg a

theorem recordPair_map_core (agents : List AgentSt) (i j : ℕ) :
    (recordPair agents i j).map corePart = agents.map corePart := by
  simp only [recordPair]
  rw [modifyAgent_map_core, modifyAgent_map_core]
  · intro a
    rfl
  · intro a
    rfl

theorem recordGroupContacts_map_core (agents : List AgentSt) (is : List ℕ) :
    (recordGroupContacts agents is).map corePart = agents.map corePart := by
  unfold recordGroupContacts
  generalize group_contact_pairs is = ps
  induction ps generalizing agents with
  | nil => rfl
  | cons q qs ih =>
    rw [List.foldl_cons, ih, recordPair_map_core]

theorem transmitIndices_map_core (beta : ℚ) (k : ℕ) :
    ∀ (is : List ℕ) (agents : List AgentSt) (s : Rng),
      ((transmitIndices beta k is agents s).1).map corePart =
        agents.map corePart := by
  intro is
  induction is with
  | nil => intro agents s; rfl
  | cons i rest ih =>
    intro agents s
    unfold transmitIndices
    cases hget : agents.get? i with
    | none => exact ih agents s
    | some a =>
      simp only []
      split
      · rw [ih]
        split
        · apply set_same_map
          intro b hb
          rw [hget] at hb
          injection hb with hab
          rw [← hab]
          rfl
        · rfl
      · exact ih agents s

theorem interactionPass_map_core (beta : ℚ) :
    ∀ (groups : List (String × List ℕ)) (agents : List AgentSt) (s : Rng),
      ((interactionPass beta groups agents s).1).map corePart =
        agents.map corePart := by
  intro groups
  induction groups with
  | nil => intro agents s; rfl
  | cons g rest ih =>
    intro agents s
    obtain ⟨loc, is⟩ := g
    unfold interactionPass
    split
    · exact ih agents s
    · rw [ih, transmitIndices_map_core, recordGroupContacts_map_core]

theorem updateAgentHS_map_core (mode : String) (lt : List (String × String))
    (p : StressParams) (ih fh : ℕ) (agents : List AgentSt) (i : ℕ) (s : Rng) :
    ((updateAgentHS mode lt p ih fh agents i s).1).map corePart =
      agents.map corePart := by
  unfold updateAgentHS
  cases hget : agents.get? i with
  | none => rfl
  | some a =>
    simp only []
    split
    · apply set_same_map
      intro b hb
      rw [hget] at hb
      injection hb with hab
      rw [← hab]
      split <;> rfl
    · apply set_same_map
      intro b hb
      rw [hget] at hb
      injection hb with hab
      rw [← hab]
      rfl

theorem updatePass_map_core (mode : String) (lt : List (String × String))
    (p : StressParams) (ihrs fhrs : ℕ) :
    ∀ (is : List ℕ) (agents : List AgentSt) (s : Rng),
      ((updatePass mode lt p ihrs fhrs is agents s).1).map corePart =
        agents.map corePart := by
  intro is
  induction is with
  | nil => intro agents s; rfl
  | cons i rest ih =>
    intro agents s
    unfold updatePass
    rw [ih, updateAgentHS_map_core]

theorem movePass_get? (mode : String) (lt : List (String × String))
    (le : List String) (hour : ℕ) :
    ∀ (agents : List AgentSt) (s : Rng) (i : ℕ),
      ∃ t, (movePass mode lt le hour agents s).1.get? i =
        (agents.get? i).map (fun a => (moveAgentR mode lt le hour a t).1) := by
  intro agents
  induction agents with
  | nil => intro s i; exact ⟨s, rfl⟩
  | cons a as ih =>
    intro s i
    cases i with
    | zero => exact ⟨s, rfl⟩
    | succ n =>
      obtain ⟨t, ht⟩ := ih (moveAgentR mode lt le hour a s).2 n
      exact ⟨t, ht⟩

theorem leisureOrHomeR_fields (mode : String) (lt : List (String × String))
    (le : List String) (a : AgentSt) (s : Rng) :
    (leisureOrHomeR mode lt le a s).1.role = a.role ∧
    (leisureOrHomeR mode lt le a s).1.home = a.home ∧
    (leisureOrHomeR mode lt le a s).1.work = a.work := by
  simp only [leisureOrHomeR]
  split
  · split
    · exact ⟨rfl, rfl, rfl⟩
    · exact ⟨rfl, rfl, rfl⟩
  · exact ⟨rfl, rfl, rfl⟩

theorem moveAgentR_fields (mode : String) (lt : List (String × String))
    (le : List String) (hour : ℕ) (a : AgentSt) (s : Rng) :
    (moveAgentR mode lt le hour a s).1.role = a.role ∧
    (moveAgentR mode lt le hour a s).1.home = a.home ∧
    (moveAgentR mode lt le hour a s).1.work = a.work := by
  unfold moveAgentR
  split
  · split
    · exact ⟨rfl, rfl, rfl⟩
    · exact leisureOrHomeR_fields mode lt le a s
  · split
    · split
      · exact ⟨rfl, rfl, rfl⟩
      · exact leisureOrHomeR_fields mode lt le a s
    · exact leisureOrHomeR_fields mode lt le a s

theorem moveAgentR_service_at_work (mode : String) (lt : List (String × String))
    (le : List String) (hour : ℕ) (a : AgentSt) (s : Rng) (w : String)
    (hr : a.role = "service") (hw : a.work = some w)
    (h9 : 9 ≤ hour) (h17 : hour < 17) :
    (moveAgentR mode lt le hour a s).1.location = w := by
  unfold moveAgentR
  have hcond : (a.role == "office" || a.role == "service" || a.role == "owner") = true := by
    rw [hr]
    rfl
  rw [if_pos hcond, if_pos ⟨h9, h17⟩]
  have hwork : (allows_work mode a.role && a.work.isSome) = true := by
    rw [hr, hw]
    rfl
  show (if (allows_work mode a.role && a.work.isSome) = true
    then a.work.getD a.home else a.home) = w
  rw [if_pos hwork, hw]
  rfl

theorem buildAgent_work_isSome (ah sl ol svl cl : List String) (i : ℕ)
    (role : String) (s : Rng) :
    ((buildAgent ah sl ol svl cl i role s).1).work.isSome = true := by
  unfold buildAgent
  split_ifs <;> rfl

theorem buildAgents_work_isSome (ah sl ol svl cl : List String) :
    ∀ (roles : List String) (i : ℕ) (s : Rng) (a : AgentSt),
      a ∈ (buildAgents ah sl ol svl cl roles i s).1 → a.work.isSome = true := by
  intro roles
  induction roles with
  | nil => intro i s a ha; cases ha
  | cons role rest ih =>
    intro i s a ha
    have hsplit : (buildAgents ah sl ol svl cl (role :: rest) i s).1 =
        (buildAgent ah sl ol svl cl i role s).1 ::
        (buildAgents ah sl ol svl cl rest (i + 1)
          (buildAgent ah sl ol svl cl i role s).2).1 := rfl
    rw [hsplit] at ha
    rcases List.mem_cons.mp ha with h | h
    · rw [h]
      exact buildAgent_work_isSome ah sl ol svl cl i role s
    · exact ih (i + 1) _ a h


theorem mkModel_agents_work_isSome (N : ℕ) (mode : String) (seed : ℕ) :
    ∀ a ∈ (mkModel N mode seed).agents, a.work.isSome = true := by
  intro a ha
  change a ∈ List.map _ (buildAgents _ _ _ _ _ _ 0 _).1 at ha
  obtain ⟨b, hb, hab⟩ := List.mem_map.mp ha
  have hwb : b.work.isSome = true := buildAgents_work_isSome _ _ _ _ _ _ 0 _ b hb
  have hwork : a.work = b.work := by
    rw [← hab]
    split <;> rfl
  rw [hwork]
  exact hwb

/-- C9: under every policy mode, a service-role agent is located at its
assigned work location during every hour h with 9 ≤ h < 17, at every
step of every run: `allows_work` is unconditionally true for service
agents, every constructed agent carries a work location, the movement
pass sends such an agent to its work location inside the window, and
the interaction and health/stress phases of the step never move it. -/
theorem claim_C9_essential_workers :
    (∀ mode role, role = "service" → allows_work mode role = true) ∧
    (∀ N mode seed, ∀ a ∈ (mkModel N mode seed).agents, a.work.isSome = true) ∧
    (∀ mode lt le hour (a : AgentSt) s w, a.role = "service" → a.work = some w →
      9 ≤ hour → hour < 17 → (moveAgentR mode lt le hour a s).1.location = w) ∧
    (∀ m : TownModelSt, 9 ≤ m.current_hour → m.current_hour < 17 →
      ∀ i (a' : AgentSt), (stepModel m).agents.get? i = some a' →
      a'.role = "service" → ∀ w, a'.work = some w → a'.location = w) := by
  refine ⟨?_, ?_, ?_, ?_⟩
  · intro mode role hr
    rw [hr]
    rfl
  · exact fun N mode seed => mkModel_agents_work_isSome N mode seed
  · intro mode lt le hour a s w hr hw h9 h17
    exact moveAgentR_service_at_work mode lt le hour a s w hr hw h9 h17
  · intro m h9 h17 i a' hget hrole w hwork
    have hchain : (stepModel m).agents.map corePart = (stepMoved m).1.map corePart := by
      show (stepUpdated m).1.map corePart = _
      unfold stepUpdated
      rw [updatePass_map_core]
      unfold stepInteracted
      rw [interactionPass_map_core]
    have hga : ((stepModel m).agents.map corePart).get? i = some (corePart a') := by
      rw [List.get?_map, hget]
      rfl
    rw [hchain, List.get?_map] at hga
    cases hgb : (stepMoved m).1.get? i with
    | none =>
      rw [hgb] at hga
      cases hga
    | some b =>
      rw [hgb] at hga
      have hcb : corePart b = corePart a' := by
        simpa using hga
      obtain ⟨t, ht⟩ := movePass_get? m.mode m.location_types m.leisure_locations
        m.current_hour (stepAgents0 m) m.rng i
      have hgb' : (some b : Option AgentSt) = ((stepAgents0 m).get? i).map
          (fun a => (moveAgentR m.mode m.location_types m.leisure_locations
            m.current_hour a t).1) := by
        rw [← hgb]
        exact ht
      cases hg0 : (stepAgents0 m).get? i with
      | none =>
        rw [hg0] at hgb'
        cases hgb'
      | some a0 =>
        rw [hg0] at hgb'
        have hb : b = (moveAgentR m.mode m.location_types m.leisure_locations
            m.current_hour a0 t).1 := by
          simpa using hgb'
        have hfields := moveAgentR_fields m.mode m.location_types
          m.leisure_locations m.current_hour a0 t
        simp only [corePart, Prod.mk.injEq] at hcb
        have hb_role : b.role = a0.role := by
          rw [hb]
          exact hfields.1
        have hb_work : b.work = a0.work := by
          rw [hb]
          exact hfields.2.2
        have hrole0 : a0.role = "service" := by
          rw [← hb_role, hcb.1, hrole]
        have hwork0 : a0.work = some w := by
          rw [← hb_work, hcb.2.2.1, hwork]
        have hloc : b.location = w := by
          rw [hb]
          exact moveAgentR_service_at_work _ _ _ _ a0 t w hrole0 hwork0 h9 h17
        rw [← hcb.2.2.2.2, hloc]

/-- Witness for C9: a concrete service agent moved at hour 10 under the
"full" lockdown still ends up at its service site. -/
theorem claim_C9_witness :
    (moveAgentR "full" [] [] 10
      (mkAgentSt 0 "service" "home_0" (some "service_0") none (1/2) false) 3).1.location
      = "service_0" :=
  claim_C9_essential_workers.2.2.1 "full" [] [] 10
    (mkAgentSt 0 "service" "home_0" (some "service_0") none (1/2) false) 3
    "service_0" rfl rfl (by decide) (by decide)


/-! ### Stress invariant through the full step pipeline -/

theorem update_stress_value_bounds (contacts : List ContactView)
    (social_need : ℚ) (ob hd : Bool) (s0 : ℚ)
    (h0 : 0 ≤ s0) (h1 : s0 ≤ 1)
    (hc : ∀ c ∈ contacts, 0 ≤ c.stress ∧ c.stress ≤ 1) :
    0 ≤ update_stress_value townStressParams contacts social_need ob hd s0 ∧
    update_stress_value townStressParams contacts social_need ob hd s0 ≤ 1 := by
  have b1 := stress_after_decay_bounds townStressParams
    (by norm_num [townStressParams]) s0 h0 h1
  have b2 := stress_if_add_bounds
    ((contacts.length : ℚ) < social_need * townStressParams.target_contacts)
    _ townStressParams.isolation_stress b1.1 b1.2 (by norm_num [townStressParams])
  have b3 := stress_if_add_bounds
    (0 < (contacts.filter (fun c => c.health_state = .I)).length)
    _ townStressParams.fear_stress b2.1 b2.2 (by norm_num [townStressParams])
  have b4 := stress_if_add_bounds (ob = true)
    _ townStressParams.economic_stress b3.1 b3.2 (by norm_num [townStressParams])
  have b5 := stress_if_add_bounds
    (hd = true ∧ 0 < (contacts.filter (fun c => c.health_state = .I)).length)
    _ townStressParams.dependent_stress b4.1 b4.2 (by norm_num [townStressParams])
  have hcs : ∀ x ∈ contacts.map (fun c => c.stress), 0 ≤ x ∧ x ≤ 1 := by
    intro x hx
    obtain ⟨c, hcmem, hxeq⟩ := List.mem_map.mp hx
    exact hxeq ▸ hc c hcmem
  have b6 := stress_after_social_bounds townStressParams
    (by norm_num [townStressParams]) (by norm_num [townStressParams])
    (contacts.map (fun c => c.stress)) hcs _ b5.1 b5.2
  exact b6

theorem getD_stress_bounds (agents : List AgentSt)
    (hinv : ∀ a ∈ agents, 0 ≤ a.stress ∧ a.stress ≤ 1) (cid : ℕ) :
    0 ≤ (agents.getD cid default).stress ∧ (agents.getD cid default).stress ≤ 1 := by
  by_cases hlt : cid < agents.length
  · rw [List.getD_eq_getElem agents default hlt]
    exact hinv _ (List.getElem_mem hlt)
  · rw [List.getD_eq_default agents default (by omega)]
    have hdef : (default : AgentSt).stress = 0 := rfl
    rw [hdef]
    norm_num

theorem leisureOrHomeR_stress (mode : String) (lt : List (String × String))
    (le : List String) (a : AgentSt) (s : Rng) :
    (leisureOrHomeR mode lt le a s).1.stress = a.stress := by
  simp only [leisureOrHomeR]
  split
  · split
    · rfl
    · rfl
  · rfl

theorem moveAgentR_stress (mode : String) (lt : List (String × String))
    (le : List String) (hour : ℕ) (a : AgentSt) (s : Rng) :
    (moveAgentR mode lt le hour a s).1.stress = a.stress := by
  unfold moveAgentR
  split
  · split
    · rfl
    · exact leisureOrHomeR_stress mode lt le a s
  · split
    · split
      · rfl
      · exact leisureOrHomeR_stress mode lt le a s
    · exact leisureOrHomeR_stress mode lt le a s

theorem movePass_map_stress (mode : String) (lt : List (String × String))
    (le : List String) (hour : ℕ) :
    ∀ (agents : List AgentSt) (s : Rng),
      ((movePass mode lt le hour agents s).1).map (fun a => a.stress) =
        agents.map (fun a => a.stress) := by
  intro agents
  induction agents with
  | nil => intro s; rfl
  | cons a as ih =>
    intro s
    show ((moveAgentR mode lt le hour a s).1 ::
      (movePass mode lt le hour as (moveAgentR mode lt le hour a s).2).1).map
        (fun a => a.stress) = _
    rw [List.map_cons, List.map_cons, moveAgentR_stress, ih]

theorem modifyAgent_map_pres {β : Type} (f : AgentSt → β) (l : List AgentSt)
    (i : ℕ) (g : AgentSt → AgentSt) (hg : ∀ a, f (g a) = f a) :
    (modifyAgent l i g).map f = l.map f := by
  unfold modifyAgent
  cases hget : l.get? i with
  | none => rfl
  | some a =>
    apply set_same_map
    intro b hb
    rw [hget] at hb
    injection hb with hab
    rw [← hab]
    exact hg a

theorem recordPair_map_stress (agents : List AgentSt) (i j : ℕ) :
    (recordPair agents i j).map (fun a => a.stress) =
      agents.map (fun a => a.stress) := by
  simp only [recordPair]
  rw [modifyAgent_map_pres, modifyAgent_map_pres]
  · intro a
    rfl
  · intro a
    rfl

theorem recordGroupContacts_map_stress (agents : List AgentSt) (is : List ℕ) :
    (recordGroupContacts agents is).map (fun a => a.stress) =
      agents.map (fun a => a.stress) := by
  unfold recordGroupContacts
  generalize group_contact_pairs is = ps
  induction ps generalizing agents with
  | nil => rfl
  | cons q qs ih =>
    rw [List.foldl_cons, ih, recordPair_map_stress]

theorem transmitIndices_map_stress (beta : ℚ) (k : ℕ) :
    ∀ (is : List ℕ) (agents : List AgentSt) (s : Rng),
      ((transmitIndices beta k is agents s).1).map (fun a => a.stress) =
        agents.map (fun a => a.stress) := by
  intro is
  induction is with
  | nil => intro agents s; rfl
  | cons i rest ih =>
    intro agents s
    unfold transmitIndices
    cases hget : agents.get? i with
    | none => exact ih agents s
    | some a =>
      simp only []
      split
      · rw [ih]
        split
        · apply set_same_map
          intro b hb
          rw [hget] at hb
          injection hb with hab
          rw [← hab]
        · rfl
      · exact ih agents s

theorem interactionPass_map_stress (beta : ℚ) :
    ∀ (groups : List (String × List ℕ)) (agents : List AgentSt) (s : Rng),
      ((interactionPass beta groups agents s).1).map (fun a => a.stress) =
        agents.map (fun a => a.stress) := by
  intro groups
  induction groups with
  | nil => intro agents s; rfl
  | cons g rest ih =>
    intro agents s
    obtain ⟨loc, is⟩ := g
    unfold interactionPass
    split
    · exact ih agents s
    · rw [ih, transmitIndices_map_stress, recordGroupContacts_map_stress]

theorem stress_bounds_of_map_eq (l l0 : List AgentSt)
    (h : l.map (fun a => a.stress) = l0.map (fun a => a.stress))
    (h0 : ∀ a ∈ l0, 0 ≤ a.stress ∧ a.stress ≤ 1) :
    ∀ a ∈ l, 0 ≤ a.stress ∧ a.stress ≤ 1 := by
  intro a ha
  have hmem : a.stress ∈ l.map (fun a => a.stress) := List.mem_map_of_mem _ ha
  rw [h] at hmem
  obtain ⟨b, hb, hba⟩ := List.mem_map.mp hmem
  rw [← hba]
  exact h0 b hb

theorem updateAgentHS_stress_invariant (mode : String)
    (lt : List (String × String)) (ihs fhs : ℕ) (agents : List AgentSt)
    (i : ℕ) (s : Rng)
    (hinv : ∀ a ∈ agents, 0 ≤ a.stress ∧ a.stress ≤ 1) :
    ∀ b ∈ (updateAgentHS mode lt townStressParams ihs fhs agents i s).1,
      0 ≤ b.stress ∧ b.stress ≤ 1 := by
  unfold updateAgentHS
  cases hget : agents.get? i with
  | none => exact hinv
  | some a =>
    have hmema : a ∈ agents := List.get?_mem hget
    have hcb : ∀ c ∈ a.today_contacts.map (fun cid =>
        ({ stress := (agents.getD cid default).stress,
           health_state := (agents.getD cid default).health_state } : ContactView)),
        0 ≤ c.stress ∧ c.stress ≤ 1 := by
      intro c hcm
      obtain ⟨cid, hcid, hceq⟩ := List.mem_map.mp hcm
      rw [← hceq]
      exact getD_stress_bounds agents hinv cid
    have hbound := update_stress_value_bounds _ a.social_need
      (a.role == "owner" && !allows_business_open mode lt a.role a.business)
      a.has_dependents a.stress (hinv a hmema).1 (hinv a hmema).2 hcb
    simp only []
    split
    · intro b hb
      rcases List.mem_or_eq_of_mem_set hb with h | h
      · exact hinv b h
      · subst h
        split
        · exact hbound
        · exact hbound
    · intro b hb
      rcases List.mem_or_eq_of_mem_set hb with h | h
      · exact hinv b h
      · subst h
        exact hbound

theorem updatePass_stress_invariant (mode : String)
    (lt : List (String × String)) (ihs fhs : ℕ) :
    ∀ (is : List ℕ) (agents : List AgentSt) (s : Rng),
      (∀ a ∈ agents, 0 ≤ a.stress ∧ a.stress ≤ 1) →
      ∀ a ∈ (updatePass mode lt townStressParams ihs fhs is agents s).1,
        0 ≤ a.stress ∧ a.stress ≤ 1 := by
  intro is
  induction is with
  | nil => intro agents s hinv; exact hinv
  | cons i rest ih =>
    intro agents s hinv
    unfold updatePass
    exact ih _ _ (updateAgentHS_stress_invariant mode lt ihs fhs agents i s hinv)

theorem stepModel_stress_invariant (m : TownModelSt)
    (hp : m.sparams = townStressParams)
    (hinv : ∀ a ∈ m.agents, 0 ≤ a.stress ∧ a.stress ≤ 1) :
    ∀ a ∈ (stepModel m).agents, 0 ≤ a.stress ∧ a.stress ≤ 1 := by
  have h0 : ∀ a ∈ stepAgents0 m, 0 ≤ a.stress ∧ a.stress ≤ 1 := by
    intro a ha
    unfold stepAgents0 at ha
    split at ha
    · obtain ⟨b, hb, hba⟩ := List.mem_map.mp ha
      rw [← hba]
      exact hinv b hb
    · exact hinv a ha
  have h1 : ∀ a ∈ (stepMoved m).1, 0 ≤ a.stress ∧ a.stress ≤ 1 :=
    stress_bounds_of_map_eq _ _
      (movePass_map_stress m.mode m.location_types m.leisure_locations
        m.current_hour (stepAgents0 m) m.rng) h0
  have h2 : ∀ a ∈ (stepInteracted m).1, 0 ≤ a.stress ∧ a.stress ≤ 1 :=
    stress_bounds_of_map_eq _ _
      (interactionPass_map_stress m.beta (groupIndices (stepMoved m).1)
        (stepMoved m).1 (stepMoved m).2) h1
  show ∀ a ∈ (stepUpdated m).1, 0 ≤ a.stress ∧ a.stress ≤ 1
  unfold stepUpdated
  rw [hp]
  exact updatePass_stress_invariant m.mode m.location_types
    m.incubation_hours m.infectious_hours _ _ _ h2

theorem buildAgent_stress (ah sl ol svl cl : List String) (i : ℕ)
    (role : String) (s : Rng) :
    ((buildAgent ah sl ol svl cl i role s).1).stress = 1/5 := by
  unfold buildAgent
  split_ifs <;> rfl

theorem buildAgents_stress (ah sl ol svl cl : List String) :
    ∀ (roles : List String) (i : ℕ) (s : Rng) (a : AgentSt),
      a ∈ (buildAgents ah sl ol svl cl roles i s).1 → a.stress = 1/5 := by
  intro roles
  induction roles with
  | nil => intro i s a ha; cases ha
  | cons role rest ih =>
    intro i s a ha
    have hsplit : (buildAgents ah sl ol svl cl (role :: rest) i s).1 =
        (buildAgent ah sl ol svl cl i role s).1 ::
        (buildAgents ah sl ol svl cl rest (i + 1)
          (buildAgent ah sl ol svl cl i role s).2).1 := rfl
    rw [hsplit] at ha
    rcases List.mem_cons.mp ha with h | h
    · rw [h]
      exact buildAgent_stress ah sl ol svl cl i role s
    · exact ih (i + 1) _ a h

theorem mkModel_stress_invariant (N : ℕ) (mode : String) (seed : ℕ) :
    ∀ a ∈ (mkModel N mode seed).agents, 0 ≤ a.stress ∧ a.stress ≤ 1 := by
  intro a ha
  change a ∈ List.map _ (buildAgents _ _ _ _ _ _ 0 _).1 at ha
  obtain ⟨b, hb, hab⟩ := List.mem_map.mp ha
  have hs : a.stress = b.stress := by
    rw [← hab]
    split <;> rfl
  rw [hs, buildAgents_stress _ _ _ _ _ _ 0 _ b hb]
  norm_num

theorem runModel_stress_invariant (N : ℕ) (mode : String) (seed hours : ℕ) :
    ∀ a ∈ (runModel N mode seed hours).agents, 0 ≤ a.stress ∧ a.stress ≤ 1 := by
  have hsp : ∀ h : ℕ, (stepModel^[h] (mkModel N mode seed)).sparams = townStressParams := by
    intro h
    induction h with
    | zero => rfl
    | succ n ihn =>
      rw [Function.iterate_succ_apply']
      exact ihn
  induction hours with
  | zero => exact mkModel_stress_invariant N mode seed
  | succ n ihn =>
    have hstep : runModel N mode seed (n + 1) = stepModel (runModel N mode seed n) := by
      show stepModel^[n + 1] _ = _
      rw [Function.iterate_succ_apply']
      rfl
    rw [hstep]
    exact stepModel_stress_invariant _ (hsp n) ihn

/-- C3: with the model's stress constants, an agent's stress lies in
[0,1] after construction (initial value 0.2), after each of the
stress-update sub-steps of an hourly update given every agent's stress
was in [0,1] beforehand (in particular the unclamped social-influence
blend cannot leave [0,1]), and hence at every point of every run. -/
theorem claim_C3_stress_in_unit_interval (contacts : List ContactView)
    (social_need : ℚ) (ownerBlocked has_dependents : Bool) (s0 : ℚ)
    (h0 : 0 ≤ s0) (h1 : s0 ≤ 1)
    (hc : ∀ c ∈ contacts, 0 ≤ c.stress ∧ c.stress ≤ 1) :
    let p := townStressParams
    let infc := (contacts.filter (fun c => c.health_state = .I)).length
    let s1 := stress_after_decay p s0
    let s2 := stress_after_isolation p contacts.length social_need s1
    let s3 := stress_after_fear p infc s2
    let s4 := stress_after_economic p ownerBlocked s3
    let s5 := stress_after_dependent p has_dependents infc s4
    let s6 := stress_after_social p (contacts.map (fun c => c.stress)) s5
    (∀ i role home work business sn dep,
      0 ≤ (mkAgentSt i role home work business sn dep).stress ∧
      (mkAgentSt i role home work business sn dep).stress ≤ 1) ∧
    (0 ≤ s1 ∧ s1 ≤ 1) ∧ (0 ≤ s2 ∧ s2 ≤ 1) ∧ (0 ≤ s3 ∧ s3 ≤ 1) ∧
    (0 ≤ s4 ∧ s4 ≤ 1) ∧ (0 ≤ s5 ∧ s5 ≤ 1) ∧ (0 ≤ s6 ∧ s6 ≤ 1) ∧
    update_stress_value p contacts social_need ownerBlocked has_dependents s0 = s6 ∧
    (∀ N pm seed hours, ∀ a ∈ (runModel N pm seed hours).agents,
      0 ≤ a.stress ∧ a.stress ≤ 1) := by
  intro p infc s1 s2 s3 s4 s5 s6
  have b1 : 0 ≤ s1 ∧ s1 ≤ 1 :=
    stress_after_decay_bounds p
      (show (0:ℚ) ≤ townStressParams.stress_decay by norm_num [townStressParams])
      s0 h0 h1
  have b2 : 0 ≤ s2 ∧ s2 ≤ 1 :=
    stress_if_add_bounds _ s1 p.isolation_stress b1.1 b1.2
      (show (0:ℚ) ≤ townStressParams.isolation_stress by norm_num [townStressParams])
  have b3 : 0 ≤ s3 ∧ s3 ≤ 1 :=
    stress_if_add_bounds _ s2 p.fear_stress b2.1 b2.2
      (show (0:ℚ) ≤ townStressParams.fear_stress by norm_num [townStressParams])
  have b4 : 0 ≤ s4 ∧ s4 ≤ 1 :=
    stress_if_add_bounds _ s3 p.economic_stress b3.1 b3.2
      (show (0:ℚ) ≤ townStressParams.economic_stress by norm_num [townStressParams])
  have b5 : 0 ≤ s5 ∧ s5 ≤ 1 :=
    stress_if_add_bounds _ s4 p.dependent_stress b4.1 b4.2
      (show (0:ℚ) ≤ townStressParams.dependent_stress by norm_num [townStressParams])
  have hcs : ∀ x ∈ contacts.map (fun c => c.stress), 0 ≤ x ∧ x ≤ 1 := by
    intro x hx
    obtain ⟨c, hcmem, hxeq⟩ := List.mem_map.mp hx
    exact hxeq ▸ hc c hcmem
  have b6 : 0 ≤ s6 ∧ s6 ≤ 1 :=
    stress_after_social_bounds p
      (show (0:ℚ) ≤ townStressParams.stress_influence by norm_num [townStressParams])
      (show townStressParams.stress_influence ≤ (1:ℚ) by norm_num [townStressParams])
      _ hcs s5 b5.1 b5.2
  refine ⟨?_, b1, b2, b3, b4, b5, b6, rfl, ?_⟩
  · intro i role home work business sn dep
    norm_num [mkAgentSt]
  · exact fun N pm seed hours => runModel_stress_invariant N pm seed hours

/-- Witness for C3 at a concrete agent with one infectious contact. -/
theorem claim_C3_witness :
    0 ≤ stress_after_social townStressParams
        ([({ stress := 1/2, health_state := .I } : ContactView)].map
          (fun c => c.stress))
        (stress_after_dependent townStressParams true 1
          (stress_after_economic townStressParams true
            (stress_after_fear townStressParams 1
              (stress_after_isolation townStressParams 1 (1/2)
                (stress_after_decay townStressParams (1/5)))))) := by
  have h := claim_C3_stress_in_unit_interval
    [{ stress := 1/2, health_state := .I }] (1/2) true true (1/5)
    (by norm_num) (by norm_num)
    (by intro c hcm; simp at hcm; rw [hcm]; norm_num)
  exact (h.2.2.2.2.2.2.1).1



/-! ### Health-rank monotonicity through the full step pipeline -/

theorem update_health_rank_le (ih fh : ℕ) (a : HealthView) :
    healthRank a.health_state ≤ healthRank (update_health ih fh a).health_state := by
  obtain ⟨hs, d⟩ := a
  cases hs with
  | S => rw [update_health_S_eq ih fh _ rfl]
  | R => rw [update_health_R_eq ih fh _ rfl]
  | E =>
    rw [update_health_E_eq]
    split
    · exact (by decide : healthRank HealthState.E ≤ healthRank HealthState.I)
    · exact le_rfl
  | I =>
    rw [update_health_I_eq]
    split
    · exact (by decide : healthRank HealthState.I ≤ healthRank HealthState.R)
    · exact le_rfl

theorem healthRank_eq_R (x : HealthState) (h : healthRank .R ≤ healthRank x) :
    x = .R := by
  cases x
  · exact absurd h (by decide)
  · exact absurd h (by decide)
  · exact absurd h (by decide)
  · rfl

theorem health_getD_of_map_eq (l1 l2 : List AgentSt)
    (h : l1.map (fun a => a.health_state) = l2.map (fun a => a.health_state))
    (i : ℕ) :
    (l1.getD i default).health_state = (l2.getD i default).health_state := by
  have hlen : l1.length = l2.length := by
    have := congrArg List.length h
    simpa using this
  have e := congrArg (fun l => l[i]?) h
  simp only [List.getElem?_map] at e
  rw [List.getD_eq_getElem?_getD, List.getD_eq_getElem?_getD]
  by_cases hi : i < l1.length
  · rw [List.getElem?_eq_getElem hi,
      List.getElem?_eq_getElem (show i < l2.length by omega)] at e ⊢
    simpa using e
  · rw [List.getElem?_eq_none (show l1.length ≤ i by omega),
      List.getElem?_eq_none (show l2.length ≤ i by omega)]

theorem rank_getD_set_le (agents : List AgentSt) (i : ℕ) (x a : AgentSt)
    (hget : agents.get? i = some a)
    (hr : healthRank a.health_state ≤ healthRank x.health_state) (j : ℕ) :
    healthRank ((agents.getD j default).health_state) ≤
      healthRank (((agents.set i x).getD j default).health_state) := by
  rw [List.getD_eq_getElem?_getD, List.getD_eq_getElem?_getD, List.getElem?_set]
  rw [List.get?_eq_getElem?] at hget
  by_cases hij : i = j
  · subst hij
    have hlen : i < agents.length := (List.getElem?_eq_some.mp hget).1
    rw [if_pos rfl, if_pos hlen, hget]
    exact hr
  · rw [if_neg hij]

theorem transmitIndices_rank_le (beta : ℚ) (k : ℕ) :
    ∀ (is : List ℕ) (agents : List AgentSt) (s : Rng) (j : ℕ),
      healthRank ((agents.getD j default).health_state) ≤
        healthRank (((transmitIndices beta k is agents s).1.getD j default).health_state) := by
  intro is
  induction is with
  | nil => intro agents s j; exact le_rfl
  | cons i rest ih =>
    intro agents s j
    unfold transmitIndices
    cases hget : agents.get? i with
    | none => exact ih agents s j
    | some a =>
      simp only []
      split
      · next hcond =>
        refine le_trans ?_ (ih _ _ j)
        split
        · refine rank_getD_set_le agents i _ a hget ?_ j
          rw [hcond.1]
          exact (by decide : healthRank HealthState.S ≤ healthRank HealthState.E)
        · exact le_rfl
      · exact ih agents s j

theorem recordPair_map_health (agents : List AgentSt) (i j : ℕ) :
    (recordPair agents i j).map (fun a => a.health_state) =
      agents.map (fun a => a.health_state) := by
  simp only [recordPair]
  rw [modifyAgent_map_pres, modifyAgent_map_pres]
  · intro a
    rfl
  · intro a
    rfl

theorem recordGroupContacts_map_health (agents : List AgentSt) (is : List ℕ) :
    (recordGroupContacts agents is).map (fun a => a.health_state) =
      agents.map (fun a => a.health_state) := by
  unfold recordGroupContacts
  generalize group_contact_pairs is = ps
  induction ps generalizing agents with
  | nil => rfl
  | cons q qs ih =>
    rw [List.foldl_cons, ih, recordPair_map_health]

theorem interactionPass_rank_le (beta : ℚ) :
    ∀ (groups : List (String × List ℕ)) (agents : List AgentSt) (s : Rng) (j : ℕ),
      healthRank ((agents.getD j default).health_state) ≤
        healthRank (((interactionPass beta groups agents s).1.getD j default).health_state) := by
  intro groups
  induction groups with
  | nil => intro agents s j; exact le_rfl
  | cons g rest ih =>
    intro agents s j
    obtain ⟨loc, is⟩ := g
    unfold interactionPass
    split
    · exact ih agents s j
    · refine le_trans ?_ (le_trans
        (transmitIndices_rank_le beta _ is (recordGroupContacts agents is) s j)
        (ih _ _ j))
      rw [health_getD_of_map_eq agents (recordGroupContacts agents is)
        (recordGroupContacts_map_health agents is).symm j]

theorem updateAgentHS_rank_le (mode : String) (lt : List (String × String))
    (p : StressParams) (ihs fhs : ℕ) (agents : List AgentSt) (i : ℕ) (s : Rng)
    (j : ℕ) :
    healthRank ((agents.getD j default).health_state) ≤
      healthRank (((updateAgentHS mode lt p ihs fhs agents i s).1.getD j default).health_state) := by
  unfold updateAgentHS
  cases hget : agents.get? i with
  | none => exact le_rfl
  | some a =>
    simp only []
    split
    · refine rank_getD_set_le agents i _ a hget ?_ j
      split
      · exact update_health_rank_le ihs fhs
          { health_state := a.health_state, days_in_state := a.days_in_state }
      · exact update_health_rank_le ihs fhs
          { health_state := a.health_state, days_in_state := a.days_in_state }
    · refine rank_getD_set_le agents i _ a hget ?_ j
      exact update_health_rank_le ihs fhs
        { health_state := a.health_state, days_in_state := a.days_in_state }

theorem updatePass_rank_le (mode : String) (lt : List (String × String))
    (p : StressParams) (ihs fhs : ℕ) :
    ∀ (is : List ℕ) (agents : List AgentSt) (s : Rng) (j : ℕ),
      healthRank ((agents.getD j default).health_state) ≤
        healthRank (((updatePass mode lt p ihs fhs is agents s).1.getD j default).health_state) := by
  intro is
  induction is with
  | nil => intro agents s j; exact le_rfl
  | cons i rest ih =>
    intro agents s j
    unfold updatePass
    exact le_trans (updateAgentHS_rank_le mode lt p ihs fhs agents i s j) (ih _ _ j)

theorem leisureOrHomeR_health (mode : String) (lt : List (String × String))
    (le : List String) (a : AgentSt) (s : Rng) :
    (leisureOrHomeR mode lt le a s).1.health_state = a.health_state := by
  simp only [leisureOrHomeR]
  split
  · split
    · rfl
    · rfl
  · rfl

theorem moveAgentR_health (mode : String) (lt : List (String × String))
    (le : List String) (hour : ℕ) (a : AgentSt) (s : Rng) :
    (moveAgentR mode lt le hour a s).1.health_state = a.health_state := by
  unfold moveAgentR
  split
  · split
    · rfl
    · exact leisureOrHomeR_health mode lt le a s
  · split
    · split
      · rfl
      · exact leisureOrHomeR_health mode lt le a s
    · exact leisureOrHomeR_health mode lt le a s

theorem movePass_map_health (mode : String) (lt : List (String × String))
    (le : List String) (hour : ℕ) :
    ∀ (agents : List AgentSt) (s : Rng),
      ((movePass mode lt le hour agents s).1).map (fun a => a.health_state) =
        agents.map (fun a => a.health_state) := by
  intro agents
  induction agents with
  | nil => intro s; rfl
  | cons a as ih =>
    intro s
    show ((moveAgentR mode lt le hour a s).1 ::
      (movePass mode lt le hour as (moveAgentR mode lt le hour a s).2).1).map
        (fun a => a.health_state) = _
    rw [List.map_cons, List.map_cons, moveAgentR_health, ih]

theorem stepModel_rank_le (m : TownModelSt) (j : ℕ) :
    healthRank ((m.agents.getD j default).health_state) ≤
      healthRank (((stepModel m).agents.getD j default).health_state) := by
  have h0 : (stepAgents0 m).map (fun a => a.health_state) =
      m.agents.map (fun a => a.health_state) := by
    unfold stepAgents0
    split
    · rw [List.map_map]
      rfl
    · rfl
  have h1 : (stepMoved m).1.map (fun a => a.health_state) =
      m.agents.map (fun a => a.health_state) := by
    unfold stepMoved
    rw [movePass_map_health, h0]
  show healthRank _ ≤ healthRank (((stepUpdated m).1.getD j default).health_state)
  unfold stepUpdated
  refine le_trans ?_ (updatePass_rank_le _ _ _ _ _ _ _ _ j)
  unfold stepInteracted
  refine le_trans ?_ (interactionPass_rank_le _ _ _ _ j)
  rw [health_getD_of_map_eq m.agents (stepMoved m).1 h1.symm j]

theorem iterate_step_rank_le (k : ℕ) (m : TownModelSt) (j : ℕ) :
    healthRank ((m.agents.getD j default).health_state) ≤
      healthRank (((stepModel^[k] m).agents.getD j default).health_state) := by
  induction k generalizing m with
  | zero => exact le_rfl
  | succ n ihn =>
    rw [Function.iterate_succ_apply]
    exact le_trans (stepModel_rank_le m j) (ihn (stepModel m))

theorem runModel_rank_le (N : ℕ) (pm : String) (seed h1 h2 : ℕ)
    (hle : h1 ≤ h2) (j : ℕ) :
    healthRank (((runModel N pm seed h1).agents.getD j default).health_state) ≤
      healthRank (((runModel N pm seed h2).agents.getD j default).health_state) := by
  have hsplit : runModel N pm seed h2 =
      stepModel^[h2 - h1] (runModel N pm seed h1) := by
    show stepModel^[h2] (mkModel N pm seed) =
      stepModel^[h2 - h1] (stepModel^[h1] (mkModel N pm seed))
    rw [← Function.iterate_add_apply]
    congr 1
    omega
  rw [hsplit]
  exact iterate_step_rank_le (h2 - h1) _ j

/-- C2: health states only advance along S → E → I → R: `update_health`
performs only E → I and I → R, transmission only S → E, Recovered is a
fixed point of every health operation (also under arbitrarily many
iterated updates), the numeric health rank never decreases under either
operation, nor across a whole `step` of the model or between any two
points of a run, so a Recovered agent stays Recovered for the remainder
of the run. -/
theorem claim_C2_seir_monotone :
    (∀ ih fh a, (update_health ih fh a).health_state = a.health_state ∨
      (a.health_state = .E ∧ (update_health ih fh a).health_state = .I) ∨
      (a.health_state = .I ∧ (update_health ih fh a).health_state = .R)) ∧
    (∀ ih fh a, healthRank a.health_state ≤
      healthRank (update_health ih fh a).health_state) ∧
    (∀ ih fh a, a.health_state = .R → update_health ih fh a = a) ∧
    (∀ ih fh n a, a.health_state = .R → (update_health ih fh)^[n] a = a) ∧
    (∀ beta draws agents i,
      ((process_group beta draws agents).getD i default).health_state =
        (agents.getD i default).health_state ∨
      ((agents.getD i default).health_state = .S ∧
        (process_group beta draws agents).getD i default =
          { health_state := .E, days_in_state := 0 })) ∧
    (∀ beta draws agents i,
      healthRank ((agents.getD i default).health_state) ≤
        healthRank (((process_group beta draws agents).getD i default).health_state)) ∧
    (∀ beta draws agents i, (agents.getD i default).health_state = .R →
      (process_group beta draws agents).getD i default = agents.getD i default) ∧
    (∀ (m : TownModelSt) (j : ℕ),
      healthRank ((m.agents.getD j default).health_state) ≤
        healthRank (((stepModel m).agents.getD j default).health_state)) ∧
    (∀ N pm seed h1 h2, h1 ≤ h2 → ∀ j : ℕ,
      healthRank (((runModel N pm seed h1).agents.getD j default).health_state) ≤
        healthRank (((runModel N pm seed h2).agents.getD j default).health_state)) ∧
    (∀ N pm seed h1 h2, h1 ≤ h2 → ∀ j : ℕ,
      ((runModel N pm seed h1).agents.getD j default).health_state = .R →
      ((runModel N pm seed h2).agents.getD j default).health_state = .R) := by
  have hstep : ∀ ih fh (a : HealthView),
      (update_health ih fh a).health_state = a.health_state ∨
      (a.health_state = .E ∧ (update_health ih fh a).health_state = .I) ∨
      (a.health_state = .I ∧ (update_health ih fh a).health_state = .R) := by
    intro ih fh a
    obtain ⟨hs, d⟩ := a
    cases hs with
    | S => left; rw [update_health_S_eq ih fh _ rfl]
    | R => left; rw [update_health_R_eq ih fh _ rfl]
    | E =>
      rw [update_health_E_eq]
      by_cases h : ih < d + 1
      · rw [if_pos h]; right; left; exact ⟨rfl, rfl⟩
      · rw [if_neg h]; left; rfl
    | I =>
      rw [update_health_I_eq]
      by_cases h : fh < d + 1
      · rw [if_pos h]; right; right; exact ⟨rfl, rfl⟩
      · rw [if_neg h]; left; rfl
  have hRfix : ∀ ih fh (a : HealthView), a.health_state = .R →
      update_health ih fh a = a := fun ih fh a h => update_health_R_eq ih fh a h
  refine ⟨hstep, ?_, hRfix, ?_, ?_, ?_, ?_, ?_, ?_, ?_⟩
  · intro ih fh a
    rcases hstep ih fh a with h | ⟨h1, h2⟩ | ⟨h1, h2⟩
    · rw [h]
    · rw [h1, h2]; decide
    · rw [h1, h2]; decide
  · intro ih fh n a h
    induction n with
    | zero => rfl
    | succ m ihm => rw [Function.iterate_succ_apply', ihm, hRfix ih fh a h]
  · intro beta draws agents i
    rcases process_group_getD_cases beta draws agents i with h | ⟨h1, h2⟩
    · left; rw [h]
    · right; exact ⟨h1, h2⟩
  · intro beta draws agents i
    rcases process_group_getD_cases beta draws agents i with h | ⟨h1, h2⟩
    · rw [h]
    · rw [h1, h2]; decide
  · intro beta draws agents i h
    rcases process_group_getD_cases beta draws agents i with hc | ⟨h1, h2⟩
    · exact hc
    · rw [h] at h1; cases h1
  · exact fun m j => stepModel_rank_le m j
  · exact fun N pm seed h1 h2 hle j => runModel_rank_le N pm seed h1 h2 hle j
  · intro N pm seed h1 h2 hle j hR
    exact healthRank_eq_R _ (hR ▸ runModel_rank_le N pm seed h1 h2 hle j)

/-- Witness for C2: a Recovered agent is untouched by a concrete health
update. -/
theorem claim_C2_witness :
    update_health 72 168 { health_state := .R, days_in_state := 5 } =
      { health_state := .R, days_in_state := 5 } :=
  claim_C2_seir_monotone.2.2.1 72 168 { health_state := .R, days_in_state := 5 } rfl

end TownSim
